import Mathlib

/-!
Verification development for the rx-player adaptive streaming core.

Each section embeds one component of the source tree as executable Lean
definitions (JavaScript numbers are modelled by `ℚ`, `null`/`undefined` by
dedicated option types) and proves the specified properties about them.
-/

namespace RxPlayer

/-- JavaScript three-valued optional: an actual value, `null`, or `undefined`.
The source distinguishes the three; a loose `== null` test is true for both
`nul` and `undef`. -/
inductive JsOpt (α : Type) where
  | val : α → JsOpt α
  | nul : JsOpt α
  | undef : JsOpt α
deriving DecidableEq, Repr

/-- The JavaScript `x == null` test (true for `null` and `undefined`). -/
def JsOpt.isNullish {α : Type} : JsOpt α → Bool
  | .val _ => false
  | .nul => true
  | .undef => true

/-! ## SegmentTemplate without SegmentTimeline
(`src/parsers/manifest/dash/common/indexes/template.ts`) -/

/-- `config.MINIMUM_SEGMENT_SIZE`, in seconds (0.005 s; the `config` module is
outside the sources, the value is the documented stable default). -/
def MINIMUM_SEGMENT_SIZE : ℚ := 5 / 1000

/-- Modelled from the spec: the `ManifestBoundsCalculator` class is not among
the sources (only its call sites are).  Per the spec it "estimates min and max
availability" of the content; we therefore keep the two estimated bounds
abstract, as the values its `estimateMinimumBound` / `estimateMaximumBound`
methods return at the time of the call (`none` = `undefined`, not yet known). -/
structure ManifestBoundsCalculator where
  estimateMinimumBound : Option ℚ
  estimateMaximumBound : Option ℚ
deriving DecidableEq, Repr

/-- State of a `TemplateRepresentationIndex` (fields of `this._index` together
with the other private fields the queries read).  Times are in the index's
timescale unless noted. -/
structure TemplateIndex where
  /-- `this._index.duration`: duration of each segment, in timescale units. -/
  duration : ℚ
  /-- `this._index.timescale`. -/
  timescale : ℚ
  /-- `this._index.presentationTimeOffset`. -/
  presentationTimeOffset : ℚ
  /-- `this._index.startNumber` (`none` = `undefined`). -/
  startNumber : Option ℚ
  /-- `this._periodStart`, in seconds. -/
  periodStart : ℚ
  /-- `this._scaledPeriodEnd` (`none` = `undefined`). -/
  scaledPeriodEnd : Option ℚ
  /-- `this._availabilityTimeOffset` (`none` = `undefined`), in seconds. -/
  availabilityTimeOffset : Option ℚ
  /-- `this._aggressiveMode`. -/
  aggressiveMode : Bool
  /-- `this._isDynamic`. -/
  isDynamic : Bool
deriving DecidableEq, Repr

/-- `this._index.indexTimeOffset` as computed in the constructor:
`presentationTimeOffset - periodStart * timescale`. -/
def TemplateIndex.indexTimeOffset (idx : TemplateIndex) : ℚ :=
  idx.presentationTimeOffset - idx.periodStart * idx.timescale

/-- One media segment as built by `getSegments` (the `args` object).  The
`id`, `mediaURLs` and `privateInfos` fields are omitted: their builders
(`createDashUrlDetokenizer`, EMSG whitelisting) live outside the sources and
none of the verified properties mention them. -/
structure MediaSegment where
  /-- `number`: the real segment number (`realNumber`). -/
  number : ℚ
  /-- `time`, in seconds. -/
  time : ℚ
  /-- `end`, in seconds (`end` is a Lean keyword, hence `endTime`). -/
  endTime : ℚ
  /-- `duration`, in seconds. -/
  duration : ℚ
  /-- `timestampOffset`. -/
  timestampOffset : ℚ
deriving DecidableEq, Repr

/-- `TemplateRepresentationIndex._getFirstSegmentStart`: timescaled start of
the first available segment, relative to the Period start. -/
def TemplateIndex._getFirstSegmentStart (idx : TemplateIndex)
    (mbc : ManifestBoundsCalculator) : JsOpt ℚ :=
  if !idx.isDynamic then .val 0
  else
    -- 1 - check that this index is already available
    let indexUnavailable : Bool :=
      if idx.scaledPeriodEnd = some 0 ∨ idx.scaledPeriodEnd = none then
        match mbc.estimateMaximumBound with
        | some maximumBound => decide (maximumBound < idx.periodStart)
        | none => false
      else false
    if indexUnavailable then .nul
    else
      match mbc.estimateMinimumBound with
      | none => .undef
      | some firstPosition =>
        let segmentTime : ℚ :=
          if firstPosition > idx.periodStart then
            (firstPosition - idx.periodStart) * idx.timescale
          else 0
        let numberIndexedToZero : ℤ := ⌊segmentTime / idx.duration⌋
        .val (numberIndexedToZero * idx.duration)

/-- `TemplateRepresentationIndex._getLastSegmentStart`: timescaled start of
the last available segment, relative to the Period start. -/
def TemplateIndex._getLastSegmentStart (idx : TemplateIndex)
    (mbc : ManifestBoundsCalculator) : JsOpt ℚ :=
  if idx.isDynamic then
    match mbc.estimateMaximumBound with
    | none => .undef
    | some lastPos =>
      let agressiveModeOffset : ℚ :=
        if idx.aggressiveMode then idx.duration / idx.timescale else 0
      let liveEdgeBranch : JsOpt ℚ :=
        let scaledLastPosition := (lastPos - idx.periodStart) * idx.timescale
        -- Maximum position is before this period: no segment available yet.
        if scaledLastPosition < 0 then .nul
        else
          let availabilityTimeOffset :=
            ((match idx.availabilityTimeOffset with
              | some a => a
              | none => 0) + agressiveModeOffset) * idx.timescale
          let numberOfSegmentsAvailable : ℤ :=
            ⌊(scaledLastPosition + availabilityTimeOffset) / idx.duration⌋
          if numberOfSegmentsAvailable ≤ 0 then .nul
          else .val ((numberOfSegmentsAvailable - 1) * idx.duration)
      match idx.scaledPeriodEnd with
      | some spe =>
        if spe <
            (lastPos + agressiveModeOffset - idx.periodStart) * idx.timescale then
          if spe < idx.duration then .nul
          else .val ((⌊spe / idx.duration⌋ - 1) * idx.duration)
        else liveEdgeBranch
      | none => liveEdgeBranch
  else
    let maximumTime : ℚ :=
      match idx.scaledPeriodEnd with
      | some spe => spe
      | none => 0
    let numberIndexedToZero : ℤ := ⌈maximumTime / idx.duration⌉ - 1
    let regularLastSegmentStart := numberIndexedToZero * idx.duration
    let minimumDuration := MINIMUM_SEGMENT_SIZE * idx.timescale
    if maximumTime - regularLastSegmentStart > minimumDuration ∨
       numberIndexedToZero = 0 then
      .val regularLastSegmentStart
    else
      .val ((numberIndexedToZero - 1) * idx.duration)

/-- The `realDuration` computed by the `getSegments` loop for the iteration
whose `timeFromPeriodStart` is `k * duration`: the segment duration, clipped
to the Period end when the segment overlaps it. -/
def TemplateIndex.realDurationAt (idx : TemplateIndex) (k : ℤ) : ℚ :=
  match idx.scaledPeriodEnd with
  | some scaledEnd =>
    if (k : ℚ) * idx.duration + idx.duration > scaledEnd then
      scaledEnd - (k : ℚ) * idx.duration
    else idx.duration
  | none => idx.duration

/-- The segment built at one iteration of the `getSegments` loop, where `k` is
the value of `numberIndexedToZero` at that iteration
(`timeFromPeriodStart = k * duration`). -/
def TemplateIndex.mkSegment (idx : TemplateIndex) (k : ℤ) : MediaSegment :=
  let timeFromPeriodStart : ℚ := k * idx.duration
  let numberOffset : ℚ :=
    match idx.startNumber with
    | none => 1
    | some n => n
  let realNumber : ℚ := (k : ℚ) + numberOffset
  let realDuration : ℚ := idx.realDurationAt k
  let scaledStart := idx.periodStart * idx.timescale
  let realTime := timeFromPeriodStart + scaledStart
  { number := realNumber,
    time := realTime / idx.timescale,
    endTime := (realTime + realDuration) / idx.timescale,
    duration := realDuration / idx.timescale,
    timestampOffset := -(idx.indexTimeOffset / idx.timescale) }

/-- Body of `getSegments` once `_getFirstSegmentStart` and
`_getLastSegmentStart` returned actual numbers `F` and `L`.  The source's
`for` loop (`timeFromPeriodStart` from `numberIndexedToZero * duration`, while
`≤ lastWantedStartPosition`, step `duration`) is rendered as a map over the
iteration count; for `0 < duration` the iterations are exactly
`k = numberIndexedToZero, …, ⌊lastWantedStartPosition / duration⌋`. -/
def TemplateIndex.getSegmentsFromBounds (idx : TemplateIndex)
    (fromTime dur F L : ℚ) : List MediaSegment :=
  let scaledStart := idx.periodStart * idx.timescale
  let upFromPeriodStart := fromTime * idx.timescale - scaledStart
  let toFromPeriodStart := (fromTime + dur) * idx.timescale - scaledStart
  let startPosition := max F upFromPeriodStart
  let lastWantedStartPosition := min L toFromPeriodStart
  if lastWantedStartPosition + idx.duration ≤ startPosition then []
  else
    let numberIndexedToZero : ℤ := ⌊startPosition / idx.duration⌋
    let segCount : ℕ :=
      (⌊lastWantedStartPosition / idx.duration⌋ - numberIndexedToZero + 1).toNat
    (List.range segCount).map
      (fun i : ℕ => idx.mkSegment (numberIndexedToZero + (i : ℤ)))

/-- `TemplateRepresentationIndex.getSegments(fromTime, dur)`.  Returns `[]`
when either `_getFirstSegmentStart` or `_getLastSegmentStart` is `null` /
`undefined` (the source's `== null` check). -/
def TemplateIndex.getSegments (idx : TemplateIndex)
    (mbc : ManifestBoundsCalculator) (fromTime dur : ℚ) : List MediaSegment :=
  match idx._getFirstSegmentStart mbc, idx._getLastSegmentStart mbc with
  | .val firstSegmentStart, .val lastSegmentStart =>
    idx.getSegmentsFromBounds fromTime dur firstSegmentStart lastSegmentStart
  | _, _ => []

/-- `TemplateRepresentationIndex.getFirstPosition`, in seconds. -/
def TemplateIndex.getFirstPosition (idx : TemplateIndex)
    (mbc : ManifestBoundsCalculator) : JsOpt ℚ :=
  match idx._getFirstSegmentStart mbc with
  | .val firstSegmentStart => .val (firstSegmentStart / idx.timescale + idx.periodStart)
  | x => x

/-- `TemplateRepresentationIndex.getLastPosition`, in seconds. -/
def TemplateIndex.getLastPosition (idx : TemplateIndex)
    (mbc : ManifestBoundsCalculator) : JsOpt ℚ :=
  match idx._getLastSegmentStart mbc with
  | .val lastSegmentStart =>
    .val ((lastSegmentStart + idx.duration) / idx.timescale + idx.periodStart)
  | x => x

/-! ### Properties of the template index (claims C1 and C5) -/

theorem TemplateIndex.mkSegment_time (idx : TemplateIndex) (k : ℤ) :
    (idx.mkSegment k).time =
      ((k : ℚ) * idx.duration + idx.periodStart * idx.timescale) / idx.timescale := rfl

theorem TemplateIndex.mkSegment_duration (idx : TemplateIndex) (k : ℤ) :
    (idx.mkSegment k).duration = idx.realDurationAt k / idx.timescale := rfl

/-- C1 (amended): for a SegmentTemplate-without-Timeline index with positive
segment duration and timescale and `d > 0`, the segments returned by
`getSegments t d` are strictly increasing in `time`, every one of them
satisfies `time ≤ t + d` (a segment may start exactly at `t + d`, so the
original strict bound fails), and `time + duration > t` holds provided `t`
lies before the Period's end whenever one is set (asking past the Period end
can return one last clipped segment that ends at or before `t`). -/
theorem claim_C1_amended (idx : TemplateIndex)
    (mbc : ManifestBoundsCalculator) (t d : ℚ)
    (hD : 0 < idx.duration) (hts : 0 < idx.timescale) (hd : 0 < d) :
    (idx.getSegments mbc t d).Pairwise (fun a b => a.time < b.time) ∧
    (∀ s ∈ idx.getSegments mbc t d, s.time ≤ t + d) ∧
    (∀ s ∈ idx.getSegments mbc t d,
      (∀ se, idx.scaledPeriodEnd = some se →
        (t - idx.periodStart) * idx.timescale < se) →
      t < s.time + s.duration) := by
  have hD0 : idx.duration ≠ 0 := ne_of_gt hD
  have hts0 : idx.timescale ≠ 0 := ne_of_gt hts
  suffices h : ∀ F L : ℚ,
      (idx.getSegmentsFromBounds t d F L).Pairwise
        (fun a b => a.time < b.time) ∧
      (∀ s ∈ idx.getSegmentsFromBounds t d F L, s.time ≤ t + d) ∧
      (∀ s ∈ idx.getSegmentsFromBounds t d F L,
        (∀ se, idx.scaledPeriodEnd = some se →
          (t - idx.periodStart) * idx.timescale < se) →
        t < s.time + s.duration) by
    unfold TemplateIndex.getSegments
    cases idx._getFirstSegmentStart mbc <;> cases idx._getLastSegmentStart mbc <;>
      first
        | exact h _ _
        | exact ⟨List.Pairwise.nil, by simp, by simp⟩
  intro F L
  simp only [TemplateIndex.getSegmentsFromBounds]
  split
  · exact ⟨List.Pairwise.nil, by simp, by simp⟩
  · set SS := idx.periodStart * idx.timescale with hSS
    set up := t * idx.timescale - SS with hup
    set toP := (t + d) * idx.timescale - SS with htoP
    set SP := max F up with hSP
    set LW := min L toP with hLW
    set k0 : ℤ := ⌊SP / idx.duration⌋ with hk0
    refine ⟨?_, ?_, ?_⟩
    · refine List.Pairwise.map _ ?_ (List.pairwise_lt_range _)
      intro a b hab
      simp only [TemplateIndex.mkSegment_time]
      rw [div_lt_div_right hts]
      have h1 : ((k0 + (a : ℤ) : ℤ) : ℚ) < ((k0 + (b : ℤ) : ℤ) : ℚ) := by
        exact_mod_cast by omega
      have h2 := mul_lt_mul_of_pos_right h1 hD
      linarith
    · intro s hs
      obtain ⟨i, hi, rfl⟩ := List.mem_map.mp hs
      have hin : i < (⌊LW / idx.duration⌋ - k0 + 1).toNat := List.mem_range.mp hi
      rw [TemplateIndex.mkSegment_time, div_le_iff hts]
      have hik : (i : ℤ) < ⌊LW / idx.duration⌋ - k0 + 1 := Int.lt_toNat.mp hin
      have hk : ((k0 + (i : ℤ) : ℤ) : ℚ) ≤ ((⌊LW / idx.duration⌋ : ℤ) : ℚ) := by
        exact_mod_cast by omega
      have hkD : ((k0 + (i : ℤ) : ℤ) : ℚ) * idx.duration ≤ LW := by
        have h3 : ((k0 + (i : ℤ) : ℤ) : ℚ) ≤ LW / idx.duration :=
          le_trans hk (Int.floor_le _)
        have h4 := mul_le_mul_of_nonneg_right h3 (le_of_lt hD)
        rwa [div_mul_cancel₀ _ hD0] at h4
      have hLWto : LW ≤ toP := min_le_right _ _
      linarith
    · intro s hs hse
      obtain ⟨i, hi, rfl⟩ := List.mem_map.mp hs
      rw [TemplateIndex.mkSegment_time, TemplateIndex.mkSegment_duration,
        div_add_div_same, lt_div_iff hts]
      have hfloor : SP / idx.duration - 1 < ((k0 : ℤ) : ℚ) := Int.sub_one_lt_floor _
      have hSPk : SP - idx.duration < ((k0 : ℤ) : ℚ) * idx.duration := by
        have h5 := mul_lt_mul_of_pos_right hfloor hD
        have h6 : (SP / idx.duration - 1) * idx.duration = SP - idx.duration := by
          field_simp
        linarith
      have hupSP : up ≤ SP := le_max_right _ _
      have hkD : ((k0 : ℤ) : ℚ) * idx.duration ≤
          ((k0 + (i : ℤ) : ℤ) : ℚ) * idx.duration := by
        apply mul_le_mul_of_nonneg_right _ (le_of_lt hD)
        exact_mod_cast by omega
      rcases hE : idx.scaledPeriodEnd with _ | se
      · have hrd : idx.realDurationAt (k0 + (i : ℤ)) = idx.duration := by
          simp only [TemplateIndex.realDurationAt, hE]
        rw [hrd]
        have hup' : t * idx.timescale = up + SS := by rw [hup]; ring
        linarith
      · have hup_se := hse se hE
        have hupeq : (t - idx.periodStart) * idx.timescale = up := by
          rw [hup, hSS]; ring
        rw [hupeq] at hup_se
        have hup' : t * idx.timescale = up + SS := by rw [hup]; ring
        by_cases hclip :
            ((k0 + (i : ℤ) : ℤ) : ℚ) * idx.duration + idx.duration > se
        · have hrd : idx.realDurationAt (k0 + (i : ℤ)) =
              se - ((k0 + (i : ℤ) : ℤ) : ℚ) * idx.duration := by
            simp only [TemplateIndex.realDurationAt, hE]
            rw [if_pos hclip]
          rw [hrd]
          linarith
        · have hrd : idx.realDurationAt (k0 + (i : ℤ)) = idx.duration := by
            simp only [TemplateIndex.realDurationAt, hE]
            rw [if_neg hclip]
          rw [hrd]
          linarith

/-- Static (VOD) template index: `timescale = 1`, segment duration `4`,
Period `[0, 12]`.  Its last segment starts at `8`. -/
def idxStaticTwelve : TemplateIndex :=
  { duration := 4, timescale := 1, presentationTimeOffset := 0, startNumber := none,
    periodStart := 0, scaledPeriodEnd := some 12, availabilityTimeOffset := none,
    aggressiveMode := false, isDynamic := false }

/-- Static (VOD) template index: `timescale = 1`, segment duration `4`,
Period `[0, 6]`.  Its last segment starts at `4` and is clipped to end `6`. -/
def idxStaticSix : TemplateIndex :=
  { duration := 4, timescale := 1, presentationTimeOffset := 0, startNumber := none,
    periodStart := 0, scaledPeriodEnd := some 6, availabilityTimeOffset := none,
    aggressiveMode := false, isDynamic := false }

/-- A bounds calculator with both bounds unknown (irrelevant for static
indexes, which never consult it in `getSegments`). -/
def mbcUnknown : ManifestBoundsCalculator :=
  { estimateMinimumBound := none, estimateMaximumBound := none }

/-- C1 counterexample: the claimed invariant fails on two concrete calls.
With Period end `12`, `getSegments 4 4` returns segments starting at `4` and
`8`; the one starting at `8 = t + d` violates the strict bound `time < t + d`.
With Period end `6`, `getSegments 7 1` returns one clipped segment
`[4, 6)` whose `time + duration = 6` is not `> t = 7`. -/
theorem claim_C1_counterexample :
    (idxStaticTwelve.getSegments mbcUnknown 4 4).map (fun s => s.time) = [4, 8] ∧
    ¬((8 : ℚ) < 4 + 4) ∧
    (idxStaticSix.getSegments mbcUnknown 7 1).map (fun s => (s.time, s.duration)) =
      [(4, 2)] ∧
    ¬((7 : ℚ) < 4 + 2) := by
  have hc : (⌈(3 : ℚ)/2⌉ : ℤ) = 2 := by rw [Int.ceil_eq_iff]; norm_num
  have ht : (2 : ℤ).toNat = 2 := rfl
  have hr : List.range 2 = [0, 1] := rfl
  have hr1 : List.range 1 = [0] := rfl
  norm_num [TemplateIndex.getSegments, TemplateIndex.getSegmentsFromBounds,
    TemplateIndex._getFirstSegmentStart, TemplateIndex._getLastSegmentStart,
    TemplateIndex.mkSegment, TemplateIndex.realDurationAt, MINIMUM_SEGMENT_SIZE,
    TemplateIndex.indexTimeOffset,
    idxStaticTwelve, idxStaticSix, mbcUnknown, hc, ht, hr, hr1]

/-- C1 witness: the amended invariant, instantiated on a concrete call. -/
theorem claim_C1_witness :
    (0 : ℚ) < idxStaticTwelve.duration ∧ (0 : ℚ) < idxStaticTwelve.timescale ∧
    ((idxStaticTwelve.getSegments mbcUnknown 0 4).Pairwise
        (fun a b => a.time < b.time) ∧
      ∀ s ∈ idxStaticTwelve.getSegments mbcUnknown 0 4, s.time ≤ 0 + 4) :=
  ⟨by norm_num [idxStaticTwelve], by norm_num [idxStaticTwelve],
   (claim_C1_amended idxStaticTwelve mbcUnknown 0 4 (by norm_num [idxStaticTwelve])
      (by norm_num [idxStaticTwelve]) (by norm_num)).1,
   (claim_C1_amended idxStaticTwelve mbcUnknown 0 4 (by norm_num [idxStaticTwelve])
      (by norm_num [idxStaticTwelve]) (by norm_num)).2.1⟩

/-! ### Claim C5: dynamic template index positions -/

/-- The dynamic template index of the C5 scenario: `timescale = 1000`,
`duration = 4000`, `startNumber = 1`, `periodStart = 0`, no Period end,
aggressive mode off, `availabilityTimeOffset = 0`. -/
def idxDynLive : TemplateIndex :=
  { duration := 4000, timescale := 1000, presentationTimeOffset := 0,
    startNumber := some 1, periodStart := 0, scaledPeriodEnd := none,
    availabilityTimeOffset := some 0, aggressiveMode := false, isDynamic := true }

/-- Modelled from the spec: bounds for `availability_start_time = 0`, server
time `100 s` and `timeshift_buffer_depth = 20 s`.  The maximum bound is the
live edge `serverTime − availability_start_time = 100` (this is also how the
in-source DASH parser computes the dynamic maximum position); the minimum
bound is `maximum − timeshift_buffer_depth = 80`. -/
def mbcServer100 : ManifestBoundsCalculator :=
  { estimateMinimumBound := some 80, estimateMaximumBound := some 100 }

/-- C5 counterexample: in the claimed scenario `get_last_position()` returns
`100 s` — the *end* of the last available segment — not approximately `96 s`
(the claimed value is exactly one full segment duration, 4 s, away). -/
theorem claim_C5_counterexample :
    idxDynLive.getLastPosition mbcServer100 = .val 100 ∧
    ¬(|(100 : ℚ) - 96| < 4) := by
  constructor
  · norm_num [TemplateIndex.getLastPosition, TemplateIndex._getLastSegmentStart,
      idxDynLive, mbcServer100, Int.floor_eq_iff]
  · norm_num

/-- C5 (amended): in the scenario, `get_first_position()` returns `80 s` and
`get_last_position()` returns `100 s`, the end of the last available segment;
that last segment *starts* at `96 s` (96000 timescale units relative to the
Period start), which is the value `_getLastSegmentStart` yields. -/
theorem claim_C5_amended :
    idxDynLive.getFirstPosition mbcServer100 = .val 80 ∧
    idxDynLive.getLastPosition mbcServer100 = .val 100 ∧
    idxDynLive._getLastSegmentStart mbcServer100 = .val 96000 := by
  norm_num [TemplateIndex.getFirstPosition, TemplateIndex.getLastPosition,
    TemplateIndex._getFirstSegmentStart, TemplateIndex._getLastSegmentStart,
    idxDynLive, mbcServer100, Int.floor_eq_iff]

/-! ## Playback observer freezing logic (`src/core/api/playback_observer.ts`) -/

/-- `IPlaybackObserverEventType`: events that can trigger an observation.
`internalSeeking` renders the source's `"internal-seeking"`. -/
inductive ObserverEvent where
  | init
  | timeupdate
  | canplay
  | canplaythrough
  | play
  | seeking
  | seeked
  | stalled
  | loadedmetadata
  | ratechange
  | internalSeeking
deriving DecidableEq, Repr

/-- `config.MINIMUM_BUFFER_AMOUNT_BEFORE_FREEZING`, 0.5 s (the `config` module
is outside the sources; the value is the documented stable default). -/
def MINIMUM_BUFFER_AMOUNT_BEFORE_FREEZING : ℚ := 1 / 2

/-- `IMediaInfos` (the fields the rebuffering/freezing logic reads;
`buffered` and `currentRange`, host `TimeRanges` values, are omitted).
`bufferGap = none` renders the `Infinity` the source uses when the position
is inside no buffered range. -/
structure MediaInfos where
  /-- `event`: what triggered this playback observation. -/
  event : ObserverEvent
  /-- `bufferGap`, `none` = `Infinity`. -/
  bufferGap : Option ℚ
  /-- `position` (`currentTime`), in seconds. -/
  position : ℚ
  /-- `duration` of the media element. -/
  duration : ℚ
  /-- `ended` flag. -/
  ended : Bool
  /-- `paused` flag. -/
  paused : Bool
  /-- `playbackRate`. -/
  playbackRate : ℚ
  /-- `readyState` (0 to 4). -/
  readyState : ℕ
  /-- `seeking` flag. -/
  seeking : Bool
deriving DecidableEq, Repr

/-- `IFreezingStatus`: `performance.now` at the time freezing was detected. -/
structure FreezingStatus where
  timestamp : ℚ
deriving DecidableEq, Repr

/-- A playback observation, restricted to what the freezing logic reads: the
media infos plus the `freezing` status (`getFreezingStatus` never reads the
`rebuffering` field, which is therefore omitted here). -/
structure Observation where
  infos : MediaInfos
  freezing : Option FreezingStatus
deriving DecidableEq, Repr

/-- The JavaScript comparison `bufferGap > x` where `bufferGap` may be
`Infinity` (`none`). -/
def bufferGapGt (g : Option ℚ) (x : ℚ) : Bool :=
  match g with
  | none => true
  | some q => decide (q > x)

/-- The disjunction on which an established freezing status is quit
(`getFreezingStatus`, first branch). -/
def freezingExitCond (prev : Observation) (cur : MediaInfos) : Prop :=
  cur.ended = true ∨ cur.paused = true ∨ cur.readyState = 0 ∨
  cur.playbackRate = 0 ∨ prev.infos.position ≠ cur.position

instance (prev : Observation) (cur : MediaInfos) :
    Decidable (freezingExitCond prev cur) := by
  unfold freezingExitCond; infer_instance

/-- `getFreezingStatus(prevObservation, currentInfo)`; the `now` parameter
abstracts the `performance.now()` call. -/
def getFreezingStatus (prev : Observation) (cur : MediaInfos) (now : ℚ) :
    Option FreezingStatus :=
  match prev.freezing with
  | some f =>
    if freezingExitCond prev cur then none -- Quit freezing status
    else some f -- Stay in it
  | none =>
    if cur.event = .timeupdate ∧
        bufferGapGt cur.bufferGap MINIMUM_BUFFER_AMOUNT_BEFORE_FREEZING = true ∧
        cur.ended = false ∧
        cur.paused = false ∧
        1 ≤ cur.readyState ∧
        cur.playbackRate ≠ 0 ∧
        cur.position = prev.infos.position then
      some { timestamp := now }
    else none

/-- One observation step of `_createObservationObservable`: the new
observation carries the current media infos and the freezing status derived
from the previous observation (the independent rebuffering computation is not
modelled). -/
def observeStep (prev : Observation) (cur : MediaInfos) (now : ℚ) : Observation :=
  { infos := cur, freezing := getFreezingStatus prev cur now }

/-- Observation after a sequence of samples, each a pair of media infos and
the `performance.now()` at which it was taken. -/
def observeTrace (o : Observation) (samples : List (MediaInfos × ℚ)) : Observation :=
  samples.foldl (fun acc s => observeStep acc s.1 s.2) o

/-- No sample of the trace triggers the freezing-exit condition (relative to
the observation evolving along the trace). -/
def noFreezingExit : Observation → List (MediaInfos × ℚ) → Prop
  | _, [] => True
  | o, s :: rest =>
    ¬ freezingExitCond o s.1 ∧ noFreezingExit (observeStep o s.1 s.2) rest

/-- C8: once an observation carries a non-null freezing status `f`, every
later observation keeps exactly that status (same timestamp) as long as no
observation satisfies one of: position changed, paused, ended,
`readyState = 0`, `playbackRate = 0`; and as soon as one of these holds the
freezing status returns to `null`. -/
theorem claim_C8 :
    (∀ (o : Observation) (samples : List (MediaInfos × ℚ)) (f : FreezingStatus),
      o.freezing = some f → noFreezingExit o samples →
      (observeTrace o samples).freezing = some f) ∧
    (∀ (prev : Observation) (cur : MediaInfos) (now : ℚ) (f : FreezingStatus),
      prev.freezing = some f → freezingExitCond prev cur →
      (observeStep prev cur now).freezing = none) := by
  constructor
  · intro o samples
    induction samples generalizing o with
    | nil => intro f hf _; exact hf
    | cons s rest ih =>
      intro f hf hno
      obtain ⟨hexit, hrest⟩ := hno
      refine ih (observeStep o s.1 s.2) f ?_ hrest
      show getFreezingStatus o s.1 s.2 = some f
      unfold getFreezingStatus
      rw [hf]
      simp only [if_neg hexit]
  · intro prev cur now f hf hexit
    show getFreezingStatus prev cur now = none
    unfold getFreezingStatus
    rw [hf]
    simp only [if_pos hexit]

/-- A frozen observation used as concrete witness input. -/
def obsFrozenAtTen : Observation :=
  { infos := { event := .timeupdate, bufferGap := some 3, position := 10,
               duration := 60, ended := false, paused := false,
               playbackRate := 1, readyState := 3, seeking := false },
    freezing := some { timestamp := 5 } }

/-- A later sample at the same position (keeps the freezing status). -/
def infosStillTen : MediaInfos :=
  { event := .timeupdate, bufferGap := some 3, position := 10, duration := 60,
    ended := false, paused := false, playbackRate := 1, readyState := 3,
    seeking := false }

/-- A sample on which playback moved on (clears the freezing status). -/
def infosMovedOn : MediaInfos :=
  { event := .timeupdate, bufferGap := some 3, position := 11, duration := 60,
    ended := false, paused := false, playbackRate := 1, readyState := 3,
    seeking := false }

/-- C8 witness: the theorem instantiated on a concrete two-sample trace and
on a concrete exit sample. -/
theorem claim_C8_witness :
    (observeTrace obsFrozenAtTen
        [(infosStillTen, 6), (infosStillTen, 7)]).freezing =
      some { timestamp := 5 } ∧
    (observeStep obsFrozenAtTen infosMovedOn 6).freezing = none := by
  constructor
  · exact claim_C8.1 obsFrozenAtTen [(infosStillTen, 6), (infosStillTen, 7)]
      { timestamp := 5 } rfl
      (by
        refine ⟨?_, ?_, trivial⟩ <;>
          simp [freezingExitCond, observeStep, getFreezingStatus,
            obsFrozenAtTen, infosStillTen])
  · exact claim_C8.2 obsFrozenAtTen infosMovedOn 6 { timestamp := 5 } rfl
      (by simp [freezingExitCond, obsFrozenAtTen, infosMovedOn])

/-- A non-frozen previous observation at position 10. -/
def obsNotFrozenAtTen : Observation :=
  { infos := { event := .timeupdate, bufferGap := some 3, position := 10,
               duration := 60, ended := false, paused := false,
               playbackRate := 1, readyState := 3, seeking := false },
    freezing := none }

/-- A sample triggered by the `ratechange` media-element event, with the
position unchanged and every other freezing condition met. -/
def infosRatechangeTen : MediaInfos :=
  { event := .ratechange, bufferGap := some 3, position := 10, duration := 60,
    ended := false, paused := false, playbackRate := 1, readyState := 3,
    seeking := false }

/-- C7 counterexample: a sample triggered by the `ratechange` media-element
event, with the position unchanged, a buffer gap above the threshold, not
paused, not ended, `readyState = 3` and `playbackRate = 1`, still yields a
`null` freezing status: the source only ever enters freezing on samples whose
event is `timeupdate` (the sampling-timer tick), not on media-element
events. -/
theorem claim_C7_counterexample :
    (infosRatechangeTen.position = obsNotFrozenAtTen.infos.position ∧
      bufferGapGt infosRatechangeTen.bufferGap
        MINIMUM_BUFFER_AMOUNT_BEFORE_FREEZING = true ∧
      infosRatechangeTen.ended = false ∧
      infosRatechangeTen.paused = false ∧
      1 ≤ infosRatechangeTen.readyState ∧
      infosRatechangeTen.playbackRate ≠ 0 ∧
      obsNotFrozenAtTen.freezing = none) ∧
    getFreezingStatus obsNotFrozenAtTen infosRatechangeTen 7 = none := by
  refine ⟨⟨rfl, ?_, rfl, rfl, by norm_num [infosRatechangeTen], ?_, rfl⟩, ?_⟩
  · norm_num [bufferGapGt, infosRatechangeTen,
      MINIMUM_BUFFER_AMOUNT_BEFORE_FREEZING]
  · norm_num [infosRatechangeTen]
  · simp [getFreezingStatus, obsNotFrozenAtTen, infosRatechangeTen]

/-- C7 (amended): for an observation that is not already freezing, the new
freezing status becomes non-null exactly when the sample was produced by the
sampling timer (`event = timeupdate`) and `buffer_gap >
MINIMUM_BUFFER_AMOUNT_BEFORE_FREEZING`, not ended, not paused,
`ready_state ≥ 1`, `playback_rate ≠ 0` and the position is unchanged —
media-element-event samples never enter the freezing state. -/
theorem claim_C7_amended (prev : Observation) (cur : MediaInfos) (now : ℚ)
    (h : prev.freezing = none) :
    getFreezingStatus prev cur now ≠ none ↔
      (cur.event = .timeupdate ∧
       bufferGapGt cur.bufferGap MINIMUM_BUFFER_AMOUNT_BEFORE_FREEZING = true ∧
       cur.ended = false ∧
       cur.paused = false ∧
       1 ≤ cur.readyState ∧
       cur.playbackRate ≠ 0 ∧
       cur.position = prev.infos.position) := by
  unfold getFreezingStatus
  rw [h]
  split
  · rename_i hcond
    simpa using hcond
  · rename_i hcond
    simpa using hcond

/-- C7 witness: the amended characterization applied to a concrete
timer-tick sample meeting every condition. -/
theorem claim_C7_witness :
    obsNotFrozenAtTen.freezing = none ∧
    getFreezingStatus obsNotFrozenAtTen infosStillTen 7 ≠ none :=
  ⟨rfl,
   (claim_C7_amended obsNotFrozenAtTen infosStillTen 7 rfl).mpr
     ⟨rfl,
      by norm_num [bufferGapGt, infosStillTen,
        MINIMUM_BUFFER_AMOUNT_BEFORE_FREEZING],
      rfl, rfl, by norm_num [infosStillTen],
      by norm_num [infosStillTen], rfl⟩⟩

/-! ## Segment fetcher request accounting
(`createSegmentFetcher` in `src/core/fetchers/segment/create_segment_loader.ts`) -/

/-- Events of the underlying segment loader observable that `fetchSegment`
taps.  `requestId` is the transport-level request identifier (possibly
`undefined`).  Events that never touch the request accounting (`data`,
`chunk`, `chunk-complete`, `warning`) are collapsed into `other`. -/
inductive LoaderEvt where
  | requestBegin (requestId : Option String)
  | progress (requestId : Option String) (size : ℚ) (totalSize : Option ℚ)
  | requestEnd (requestId : Option String) (size : Option ℚ) (dur : Option ℚ)
  | other
deriving DecidableEq, Repr

/-- ABR request-lifecycle events pushed on the `requests$` subject by
`fetchSegment` (payload fields other than the request `id` are elided: no
verified property reads them). -/
inductive AbrEvt where
  | requestBegin (id : String)
  | progress (id : String)
  | metrics
  | requestEnd (id : String)
deriving DecidableEq, Repr

/-- The request id an ABR event carries, if any. -/
def AbrEvt.idOf : AbrEvt → Option String
  | .requestBegin i => some i
  | .progress i => some i
  | .requestEnd i => some i
  | .metrics => none

/-- `getFetcherId(idPrefix, requestId)`: the ABR-level id, built from the
per-`fetchSegment` id and the transport request id. -/
def getFetcherId (idPref : String) (requestId : Option String) : String :=
  idPref ++ (match requestId with
             | some r => "_" ++ r
             | none => "")

/-- State of one `fetchSegment` call: the `sentIds` array plus the ABR events
pushed on `requests$` so far (in order). -/
structure FetcherState where
  sentIds : List String
  out : List AbrEvt
deriving DecidableEq, Repr

/-- The `tap` callback of `fetchSegment`, handling one loader event. -/
def fetchStep (idPref : String) (s : FetcherState) (e : LoaderEvt) : FetcherState :=
  match e with
  | .requestBegin requestId =>
    let id := getFetcherId idPref requestId
    { sentIds := s.sentIds ++ [id], out := s.out ++ [.requestBegin id] }
  | .progress requestId size totalSize =>
    let id := getFetcherId idPref requestId
    match totalSize with
    | some total =>
      if size < total then { s with out := s.out ++ [.progress id] } else s
    | none => s
  | .requestEnd requestId size dur =>
    let id := getFetcherId idPref requestId
    let s1 : FetcherState :=
      match size, dur with
      | some _, some _ => { s with out := s.out ++ [.metrics] }
      | _, _ => s
    if id ∈ s1.sentIds then
      { sentIds := s1.sentIds.erase id, out := s1.out ++ [.requestEnd id] }
    else s1
  | .other => s

/-- The `finalize` callback: a `requestEnd` is pushed for every id still in
`sentIds`, front first, so the accounting never leaks. -/
def fetchFinalize (s : FetcherState) : List AbrEvt :=
  s.out ++ s.sentIds.map (fun id => .requestEnd id)

/-- All ABR events emitted by one `fetchSegment` call over a loader-event
trace.  The trace ends — by completion, error or unsubscription
(cancellation) — after its last element, at which point `finalize` runs. -/
def fetchSegmentEvents (idPref : String) (events : List LoaderEvt) : List AbrEvt :=
  fetchFinalize (events.foldl (fetchStep idPref) ⟨[], []⟩)

/-- The ABR events of the trace `l` that carry the id `id`. -/
def eventsForId (id : String) (l : List AbrEvt) : List AbrEvt :=
  l.filter (fun a => a.idOf == some id)

/-- Whether a loader event is a `request-begin` for the request id `r`. -/
def isBeginOf (r : Option String) : LoaderEvt → Bool
  | .requestBegin r' => r' == r
  | _ => false

/-- Whether a loader event is a `progress` for the request id `r`. -/
def isProgressOf (r : Option String) : LoaderEvt → Bool
  | .progress r' _ _ => r' == r
  | _ => false

/-- Whether a loader event is a `request-end` for the request id `r`. -/
def isEndOf (r : Option String) : LoaderEvt → Bool
  | .requestEnd r' _ _ => r' == r
  | _ => false

theorem eventsForId_append (id : String) (a b : List AbrEvt) :
    eventsForId id (a ++ b) = eventsForId id a ++ eventsForId id b :=
  List.filter_append a b

theorem getFetcherId_inj (idPref : String) {r1 r2 : Option String}
    (h : getFetcherId idPref r1 = getFetcherId idPref r2) : r1 = r2 := by
  have hd := congrArg String.data h
  cases r1 with
  | none =>
    cases r2 with
    | none => rfl
    | some b =>
      exfalso
      simp only [getFetcherId, String.data_append] at hd
      have := List.append_cancel_left hd
      simp [String.data_append] at this
  | some a =>
    cases r2 with
    | none =>
      exfalso
      simp only [getFetcherId, String.data_append] at hd
      have := List.append_cancel_left hd
      simp [String.data_append] at this
    | some b =>
      simp only [getFetcherId, String.data_append] at hd
      have h2 := List.append_cancel_left hd
      have h3 := List.append_cancel_left h2
      have : a = b := by
        cases a; cases b
        exact congrArg String.mk (by simpa using h3)
      rw [this]

/-- Folding loader events containing no `request-begin` and no `progress` for
`rid` over a state whose `sentIds` does not hold the corresponding ABR id
leaves both that absence and the id's emitted events unchanged. -/
theorem fetchFold_untouched (idPref : String) (rid : Option String)
    (l : List LoaderEvt) :
    ∀ s : FetcherState,
      (∀ e ∈ l, isBeginOf rid e = false ∧ isProgressOf rid e = false) →
      s.sentIds.count (getFetcherId idPref rid) = 0 →
      (List.foldl (fetchStep idPref) s l).sentIds.count
          (getFetcherId idPref rid) = 0 ∧
      eventsForId (getFetcherId idPref rid)
          (List.foldl (fetchStep idPref) s l).out =
        eventsForId (getFetcherId idPref rid) s.out := by
  induction l with
  | nil => intro s _ hc; exact ⟨hc, rfl⟩
  | cons e rest ih =>
    intro s hl hc
    have he := hl e (List.mem_cons_self _ _)
    have hrest := fun x hx => hl x (List.mem_cons_of_mem _ hx)
    have hstep : (fetchStep idPref s e).sentIds.count
          (getFetcherId idPref rid) = 0 ∧
        eventsForId (getFetcherId idPref rid) (fetchStep idPref s e).out =
          eventsForId (getFetcherId idPref rid) s.out := by
      cases e with
      | requestBegin r' =>
        have hne : r' ≠ rid := by simpa [isBeginOf] using he.1
        have hidne : getFetcherId idPref r' ≠ getFetcherId idPref rid :=
          fun hh => hne (getFetcherId_inj idPref hh)
        refine ⟨?_, ?_⟩
        · simp [fetchStep, List.count_append, hc,
            List.count_singleton', hidne]
        · simp [fetchStep, eventsForId, List.filter_append, AbrEvt.idOf, hidne]
      | progress r' size total =>
        have hne : r' ≠ rid := by simpa [isProgressOf] using he.2
        have hidne : getFetcherId idPref r' ≠ getFetcherId idPref rid :=
          fun hh => hne (getFetcherId_inj idPref hh)
        cases total with
        | none => exact ⟨hc, rfl⟩
        | some tt =>
          by_cases hlt : size < tt
          · refine ⟨by simpa [fetchStep, hlt] using hc, ?_⟩
            simp [fetchStep, hlt, eventsForId, List.filter_append,
              AbrEvt.idOf, hidne]
          · exact ⟨by simpa [fetchStep, hlt] using hc, by simp [fetchStep, hlt]⟩
      | requestEnd r' sz dur =>
        have hmem1 : getFetcherId idPref rid ∉ s.sentIds :=
          List.count_eq_zero.mp hc
        by_cases hr : r' = rid
        · subst hr
          cases sz with
          | none =>
            refine ⟨?_, ?_⟩ <;>
              simp [fetchStep, hmem1, hc]
          | some szv =>
            cases dur with
            | none =>
              refine ⟨?_, ?_⟩ <;>
                simp [fetchStep, hmem1, hc]
            | some durv =>
              refine ⟨?_, ?_⟩ <;>
                simp [fetchStep, hmem1, hc, eventsForId, List.filter_append,
                  AbrEvt.idOf]
        · have hidne : getFetcherId idPref r' ≠ getFetcherId idPref rid :=
            fun hh => hr (getFetcherId_inj idPref hh)
          have hcount_erase : ∀ l2 : List String,
              (l2.erase (getFetcherId idPref r')).count
                  (getFetcherId idPref rid) =
                l2.count (getFetcherId idPref rid) := fun l2 =>
            List.count_erase_of_ne (fun hh => hidne hh.symm) l2
          cases sz with
          | none =>
            by_cases hmem : getFetcherId idPref r' ∈ s.sentIds
            · refine ⟨?_, ?_⟩
              · simp [fetchStep, hmem, hcount_erase, hc]
              · simp [fetchStep, hmem, eventsForId, List.filter_append,
                  AbrEvt.idOf, hidne]
            · exact ⟨by simpa [fetchStep, hmem] using hc,
                by simp [fetchStep, hmem]⟩
          | some szv =>
            cases dur with
            | none =>
              by_cases hmem : getFetcherId idPref r' ∈ s.sentIds
              · refine ⟨?_, ?_⟩
                · simp [fetchStep, hmem, hcount_erase, hc]
                · simp [fetchStep, hmem, eventsForId, List.filter_append,
                    AbrEvt.idOf, hidne]
              · exact ⟨by simpa [fetchStep, hmem] using hc,
                  by simp [fetchStep, hmem]⟩
            | some durv =>
              by_cases hmem : getFetcherId idPref r' ∈ s.sentIds
              · refine ⟨?_, ?_⟩
                · simp [fetchStep, hmem, hcount_erase, hc]
                · simp [fetchStep, hmem, eventsForId, List.filter_append,
                    AbrEvt.idOf, hidne]
              · refine ⟨by simpa [fetchStep, hmem] using hc, ?_⟩
                simp [fetchStep, hmem, eventsForId, List.filter_append,
                  AbrEvt.idOf]
      | other => exact ⟨hc, rfl⟩
    rw [List.foldl_cons]
    obtain ⟨h1, h2⟩ := ih (fetchStep idPref s e) hrest hstep.1
    exact ⟨h1, h2.trans hstep.2⟩

/-- Folding loader events containing no `request-begin` and no `request-end`
for `rid` over a state whose `sentIds` holds the corresponding ABR id exactly
once keeps it there and only ever appends `progress` events for that id. -/
theorem fetchFold_inflight (idPref : String) (rid : Option String)
    (l : List LoaderEvt) :
    ∀ s : FetcherState,
      (∀ e ∈ l, isBeginOf rid e = false ∧ isEndOf rid e = false) →
      s.sentIds.count (getFetcherId idPref rid) = 1 →
      (List.foldl (fetchStep idPref) s l).sentIds.count
          (getFetcherId idPref rid) = 1 ∧
      ∃ n, eventsForId (getFetcherId idPref rid)
          (List.foldl (fetchStep idPref) s l).out =
        eventsForId (getFetcherId idPref rid) s.out ++
          List.replicate n (AbrEvt.progress (getFetcherId idPref rid)) := by
  induction l with
  | nil => intro s _ hc; exact ⟨hc, 0, by simp⟩
  | cons e rest ih =>
    intro s hl hc
    have he := hl e (List.mem_cons_self _ _)
    have hrest := fun x hx => hl x (List.mem_cons_of_mem _ hx)
    have hstep : (fetchStep idPref s e).sentIds.count
          (getFetcherId idPref rid) = 1 ∧
        ∃ m, eventsForId (getFetcherId idPref rid) (fetchStep idPref s e).out =
          eventsForId (getFetcherId idPref rid) s.out ++
            List.replicate m (AbrEvt.progress (getFetcherId idPref rid)) := by
      cases e with
      | requestBegin r' =>
        have hne : r' ≠ rid := by simpa [isBeginOf] using he.1
        have hidne : getFetcherId idPref r' ≠ getFetcherId idPref rid :=
          fun hh => hne (getFetcherId_inj idPref hh)
        refine ⟨?_, 0, ?_⟩
        · simp [fetchStep, List.count_append, hc, List.count_singleton', hidne]
        · simp [fetchStep, eventsForId, List.filter_append, AbrEvt.idOf, hidne]
      | progress r' size total =>
        cases total with
        | none => exact ⟨hc, 0, by simp [fetchStep]⟩
        | some tt =>
          by_cases hlt : size < tt
          · by_cases hr : r' = rid
            · subst hr
              refine ⟨by simpa [fetchStep, hlt] using hc, 1, ?_⟩
              simp [fetchStep, hlt, eventsForId, List.filter_append, AbrEvt.idOf]
            · have hidne : getFetcherId idPref r' ≠ getFetcherId idPref rid :=
                fun hh => hr (getFetcherId_inj idPref hh)
              refine ⟨by simpa [fetchStep, hlt] using hc, 0, ?_⟩
              simp [fetchStep, hlt, eventsForId, List.filter_append,
                AbrEvt.idOf, hidne]
          · exact ⟨by simpa [fetchStep, hlt] using hc, 0,
              by simp [fetchStep, hlt]⟩
      | requestEnd r' sz dur =>
        have hne : r' ≠ rid := by simpa [isEndOf] using he.2
        have hidne : getFetcherId idPref r' ≠ getFetcherId idPref rid :=
          fun hh => hne (getFetcherId_inj idPref hh)
        have hcount_erase : ∀ l2 : List String,
            (l2.erase (getFetcherId idPref r')).count
                (getFetcherId idPref rid) =
              l2.count (getFetcherId idPref rid) := fun l2 =>
          List.count_erase_of_ne (fun hh => hidne hh.symm) l2
        cases sz with
        | none =>
          by_cases hmem : getFetcherId idPref r' ∈ s.sentIds
          · refine ⟨?_, 0, ?_⟩
            · simp [fetchStep, hmem, hcount_erase, hc]
            · simp [fetchStep, hmem, eventsForId, List.filter_append,
                AbrEvt.idOf, hidne]
          · exact ⟨by simpa [fetchStep, hmem] using hc, 0,
              by simp [fetchStep, hmem]⟩
        | some szv =>
          cases dur with
          | none =>
            by_cases hmem : getFetcherId idPref r' ∈ s.sentIds
            · refine ⟨?_, 0, ?_⟩
              · simp [fetchStep, hmem, hcount_erase, hc]
              · simp [fetchStep, hmem, eventsForId, List.filter_append,
                  AbrEvt.idOf, hidne]
            · exact ⟨by simpa [fetchStep, hmem] using hc, 0,
                by simp [fetchStep, hmem]⟩
          | some durv =>
            by_cases hmem : getFetcherId idPref r' ∈ s.sentIds
            · refine ⟨?_, 0, ?_⟩
              · simp [fetchStep, hmem, hcount_erase, hc]
              · simp [fetchStep, hmem, eventsForId, List.filter_append,
                  AbrEvt.idOf, hidne]
            · refine ⟨by simpa [fetchStep, hmem] using hc, 0, ?_⟩
              simp [fetchStep, hmem, eventsForId, List.filter_append,
                AbrEvt.idOf]
      | other => exact ⟨hc, 0, by simp [fetchStep]⟩
    rw [List.foldl_cons]
    obtain ⟨h1, n, h2⟩ := ih (fetchStep idPref s e) hrest hstep.1
    obtain ⟨hs1, m, hs2⟩ := hstep
    refine ⟨h1, m + n, ?_⟩
    rw [h2, hs2, List.append_assoc, List.replicate_add]

/-- Filtering the finalize flush for one id yields as many `requestEnd`
events as `sentIds` holds copies of the id. -/
theorem eventsForId_flush (id : String) (l : List String) :
    eventsForId id (l.map (fun j => AbrEvt.requestEnd j)) =
      List.replicate (l.count id) (AbrEvt.requestEnd id) := by
  induction l with
  | nil => rfl
  | cons j rest ih =>
    by_cases h : j = id
    · subst h
      simp only [List.map_cons, eventsForId, List.filter_cons, List.count_cons]
      simp [AbrEvt.idOf, List.replicate_succ, ← ih, eventsForId]
    · simp only [List.map_cons, eventsForId, List.filter_cons, List.count_cons]
      simp [AbrEvt.idOf, h, Ne.symm h, ← ih, eventsForId]

/-- C2: for every request the loader starts inside a `fetchSegment` call —
the trace holds exactly one `request-begin` for its request id, its
`progress` events lie between that begin and its first `request-end`, and the
trace may stop at any point (cancellation included, `finalize` then running)
— the ABR events emitted with the derived id are exactly one `requestBegin`,
then zero or more `progress`, then exactly one `requestEnd`; the `requestEnd`
is emitted even when the loader never emitted `request-end` before the trace
was torn down. -/
theorem claim_C2 (idPref : String) (rid : Option String)
    (events A B : List LoaderEvt)
    (hsplit : events = A ++ LoaderEvt.requestBegin rid :: B)
    (hA : ∀ e ∈ A, isBeginOf rid e = false ∧ isProgressOf rid e = false)
    (hBbegin : ∀ e ∈ B, isBeginOf rid e = false)
    (hBshape :
      (∀ e ∈ B, isEndOf rid e = false) ∨
      ∃ C sz dur D, B = C ++ LoaderEvt.requestEnd rid sz dur :: D ∧
        (∀ e ∈ C, isEndOf rid e = false) ∧
        (∀ e ∈ D, isProgressOf rid e = false)) :
    ∃ n, eventsForId (getFetcherId idPref rid)
        (fetchSegmentEvents idPref events) =
      AbrEvt.requestBegin (getFetcherId idPref rid) ::
        (List.replicate n (AbrEvt.progress (getFetcherId idPref rid)) ++
          [AbrEvt.requestEnd (getFetcherId idPref rid)]) := by
  subst hsplit
  unfold fetchSegmentEvents fetchFinalize
  rw [List.foldl_append, List.foldl_cons]
  obtain ⟨hcA, hfA⟩ :=
    fetchFold_untouched idPref rid A ⟨[], []⟩ hA (by simp)
  set sA := List.foldl (fetchStep idPref) ⟨[], []⟩ A with hsA
  have hfA0 : eventsForId (getFetcherId idPref rid) sA.out = [] := by
    simpa [eventsForId] using hfA
  set sB := fetchStep idPref sA (LoaderEvt.requestBegin rid) with hsB
  have hsBsent : sB.sentIds = sA.sentIds ++ [getFetcherId idPref rid] := by
    simp [hsB, fetchStep]
  have hsBout : sB.out = sA.out ++ [AbrEvt.requestBegin (getFetcherId idPref rid)] := by
    simp [hsB, fetchStep]
  have hcB : sB.sentIds.count (getFetcherId idPref rid) = 1 := by
    simp [hsBsent, List.count_append, hcA]
  have hfB : eventsForId (getFetcherId idPref rid) sB.out =
      [AbrEvt.requestBegin (getFetcherId idPref rid)] := by
    rw [hsBout, eventsForId_append, hfA0]
    simp [eventsForId, AbrEvt.idOf]
  rcases hBshape with hnoend | ⟨C, sz, dur, D, hBeq, hCnoend, hDnoprog⟩
  · obtain ⟨hc1, n, hf1⟩ := fetchFold_inflight idPref rid B sB
      (fun e he => ⟨hBbegin e he, hnoend e he⟩) hcB
    refine ⟨n, ?_⟩
    rw [eventsForId_append, hf1, hfB, eventsForId_flush _ _, hc1]
    simp
  · subst hBeq
    rw [List.foldl_append, List.foldl_cons]
    have hCbegin : ∀ e ∈ C, isBeginOf rid e = false := fun e he =>
      hBbegin e (List.mem_append_left _ he)
    obtain ⟨hc1, n, hf1⟩ := fetchFold_inflight idPref rid C sB
      (fun e he => ⟨hCbegin e he, hCnoend e he⟩) hcB
    set sC := List.foldl (fetchStep idPref) sB C with hsC
    have hfC : eventsForId (getFetcherId idPref rid) sC.out =
        AbrEvt.requestBegin (getFetcherId idPref rid) ::
          List.replicate n (AbrEvt.progress (getFetcherId idPref rid)) := by
      rw [hf1, hfB]; rfl
    have hmem : getFetcherId idPref rid ∈ sC.sentIds := by
      have : 0 < sC.sentIds.count (getFetcherId idPref rid) := by omega
      exact List.count_pos_iff.mp this
    set sE := fetchStep idPref sC (LoaderEvt.requestEnd rid sz dur) with hsE
    have hsEprop : sE.sentIds = sC.sentIds.erase (getFetcherId idPref rid) ∧
        eventsForId (getFetcherId idPref rid) sE.out =
          eventsForId (getFetcherId idPref rid) sC.out ++
            [AbrEvt.requestEnd (getFetcherId idPref rid)] := by
      cases sz with
      | none =>
        constructor
        · simp [hsE, fetchStep, hmem]
        · simp [hsE, fetchStep, hmem, eventsForId, List.filter_append,
            AbrEvt.idOf]
      | some szv =>
        cases dur with
        | none =>
          constructor
          · simp [hsE, fetchStep, hmem]
          · simp [hsE, fetchStep, hmem, eventsForId, List.filter_append,
              AbrEvt.idOf]
        | some durv =>
          constructor
          · simp [hsE, fetchStep, hmem]
          · simp [hsE, fetchStep, hmem, eventsForId, List.filter_append,
              AbrEvt.idOf]
    have hcE : sE.sentIds.count (getFetcherId idPref rid) = 0 := by
      rw [hsEprop.1, List.count_erase_self, hc1]
    have hDbegin : ∀ e ∈ D, isBeginOf rid e = false := fun e he =>
      hBbegin e (List.mem_append_right _ (List.mem_cons_of_mem _ he))
    obtain ⟨hcD, hfD⟩ := fetchFold_untouched idPref rid D sE
      (fun e he => ⟨hDbegin e he, hDnoprog e he⟩) hcE
    refine ⟨n, ?_⟩
    rw [eventsForId_append, hfD, hsEprop.2, hfC, eventsForId_flush _ _, hcD]
    simp

/-- C2 witness: the theorem applied to a concrete cancelled fetch — the
loader began request `"0"` and reported one progress event, then the
subscription was torn down before any `request-end`. -/
theorem claim_C2_witness :
    ∃ n, eventsForId (getFetcherId "A" (some "0"))
        (fetchSegmentEvents "A"
          [LoaderEvt.requestBegin (some "0"),
           LoaderEvt.progress (some "0") 10 (some 100),
           LoaderEvt.other]) =
      AbrEvt.requestBegin (getFetcherId "A" (some "0")) ::
        (List.replicate n (AbrEvt.progress (getFetcherId "A" (some "0"))) ++
          [AbrEvt.requestEnd (getFetcherId "A" (some "0"))]) :=
  claim_C2 "A" (some "0") _ []
    [LoaderEvt.progress (some "0") 10 (some 100), LoaderEvt.other]
    rfl (by simp) (by decide) (Or.inl (by decide))

/-! ## ABR RepresentationEstimator (`src/core/abr/representation_estimator.ts`)

The per-tick `map` body of the auto-mode pipeline (source lines 533-748) is
embedded as a pure step function.  The collaborators whose sources are not in
the tree (`NetworkAnalyzer`, `BufferBasedChooser`,
`RepresentationScoreCalculator`, `PendingRequestsStore`,
`estimateRequestBandwidth`) only feed values into this body; those values are
taken as inputs of the step, so the theorems quantify over their behavior. -/

/-- A `Representation` restricted to the fields the estimator reads. -/
structure Representation where
  id : String
  bitrate : ℚ
deriving DecidableEq, Repr

/-- `ScoreConfidenceLevel` of the representation score calculator. -/
inductive ScoreConfidenceLevel where
  | HIGH
  | LOW
deriving DecidableEq, Repr

/-- One pending request as the guess-mode monitoring reads it: the
representation id of its content, whether its segment is an init segment, the
expected segment duration (seconds) and the `performance.now()` timestamp at
which the request started. -/
structure PendingRequest where
  representationId : String
  isInit : Bool
  duration : ℚ
  requestTimestamp : ℚ
deriving DecidableEq, Repr

/-- `IRepresentationEstimatorClockTick`; `bufferGap = none` renders
`Infinity`. -/
structure ClockTick where
  bufferGap : Option ℚ
  position : ℚ
  speed : ℚ
  duration : ℚ
  liveGap : Option ℚ
deriving DecidableEq, Repr

/-- `IABRFiltersObject`. -/
structure AbrFilters where
  bitrate : Option ℚ
  width : Option ℚ
deriving DecidableEq, Repr

/-- `IABREstimate` (the emitted estimate). -/
structure AbrEstimate where
  bitrate : Option ℚ
  representation : Representation
  manual : Bool
  urgent : Bool
  knownStableBitrate : Option ℚ
deriving DecidableEq, Repr

/-- `EstimateStorage` (the previous estimate). -/
structure EstimateStorage where
  bandwidth : Option ℚ
  representation : Option Representation
  wasGuessed : Bool
deriving DecidableEq, Repr

/-- The auto-mode mutable state of one `RepresentationEstimator`:
`prevEstimate`, `allowBufferBasedEstimates`, `blockGuessingModeUntil` and
`consecutiveWrongGuesses`. -/
structure AbrState where
  prevEstimate : EstimateStorage
  allowBufferBasedEstimates : Bool
  blockGuessingModeUntil : ℚ
  consecutiveWrongGuesses : ℕ
deriving DecidableEq, Repr

/-- Everything one auto-mode estimation step reads: the constructor inputs
(`representations`), the tick of each combined observable (`clock`,
`minAutoBitrate`, `maxAutoBitrate`, `filters`, `bufferBasedBitrate`,
`currentRepresentation`), the pending-request store contents, the outputs of
`NetworkAnalyzer.getBandwidthEstimate` (`bandwidthEstimate`, `bitrateChosen`),
the score calculator (`getEstimate`, `lastStableRepresentation`), the
in-flight bandwidth estimator (`estimateRequestBw`), the urgency analyzer
(`isUrgent`) and `performance.now()` (`now`).  `maxAutoBitrate = none`
renders `Infinity`. -/
structure AbrStepEnv where
  representations : List Representation
  clock : ClockTick
  minAutoBitrate : ℚ
  maxAutoBitrate : Option ℚ
  filters : AbrFilters
  currentRepresentation : Option Representation
  requests : List PendingRequest
  bufferBasedBitrate : Option ℚ
  bandwidthEstimate : Option ℚ
  bitrateChosen : ℚ
  getEstimate : Representation → Option (ℚ × ScoreConfidenceLevel)
  lastStableRepresentation : Option Representation
  estimateRequestBw : PendingRequest → Option ℚ
  isUrgent : ℚ → Bool
  now : ℚ

/-- Modelled from the spec: `filterByBitrate` is not in the tree.  Its
contract is documented on `IABRFiltersObject.bitrate` in the source: "Filters
out all Representations with a bitrate higher than this value.  If all
Representations have a bitrate higher than this value, still consider the
Representation with the lowest bitrate." -/
def filterByBitrate (representations : List Representation) (bitrate : ℚ) :
    List Representation :=
  match representations.filter (fun r => r.bitrate ≤ bitrate) with
  | [] =>
    match representations.head? with
    | some r => [r]
    | none => []
  | kept => kept

/-- Modelled from the spec: `filterByWidth` is not in the tree.  It only
discards Representations by their `width`; width is not part of the modelled
`Representation` (no claim involves it), so every Representation counts as
having an unknown width and is kept. -/
def filterByWidth (representations : List Representation) (_width : ℚ) :
    List Representation :=
  representations

/-- `getFilteredRepresentations` (source lines 350-365). -/
def getFilteredRepresentations (representations : List Representation)
    (filters : AbrFilters) : List Representation :=
  let r1 :=
    match filters.bitrate with
    | some b => filterByBitrate representations b
    | none => representations
  match filters.width with
  | some w => filterByWidth r1 w
  | none => r1

/-- Modelled from the spec: `selectOptimalRepresentation` is not in the tree.
Spec: pick the highest Representation at or below the target bitrate, the
target being clamped into `[min_auto_bitrate, max_auto_bitrate]`; when no
Representation is at or below the clamped target, the Representation with the
lowest bitrate is chosen instead.  Returns `none` only on an empty list
(where the source would fail). -/
def selectOptimalRepresentation (representations : List Representation)
    (optimalBitrate minBitrate : ℚ) (maxBitrate : Option ℚ) :
    Option Representation :=
  let wantedBitrate : ℚ :=
    if optimalBitrate ≤ minBitrate then minBitrate
    else
      match maxBitrate with
      | some m => if optimalBitrate ≥ m then m else optimalBitrate
      | none => optimalBitrate
  match (representations.filter (fun r => r.bitrate ≤ wantedBitrate)).getLast? with
  | some r => some r
  | none => representations.head?

/-- `getSuperiorRepresentation` (source lines 367-382): the Representation
right after the current one in the list; `none` when the current one is not
found or is already the last. -/
def getSuperiorRepresentation (representations : List Representation)
    (currentRepresentation : Representation) : Option Representation :=
  match representations.findIdx? (fun r => r.id == currentRepresentation.id) with
  | none => none
  | some index =>
    if index = representations.length - 1 then none
    else representations.get? (index + 1)

/-- The request-monitoring loop of guess mode (source lines 635-658): stays
`true` unless some pending request for the guessed Representation elapsed
beyond its segment duration (beyond 1 s for an init segment) or its in-flight
bandwidth estimate dropped below the Representation's bitrate. -/
def stayInGuessMode (env : AbrStepEnv) (currentRep : Representation) : Bool :=
  (env.requests.filter
      (fun req => req.representationId == currentRep.id)).all
    (fun req =>
      let requestElapsedTime := env.now - req.requestTimestamp
      if req.isInit then
        decide (requestElapsedTime ≤ 1000)
      else if requestElapsedTime > req.duration * 1000 then
        false
      else
        match env.estimateRequestBw req with
        | some fastBw => decide (¬(fastBw < currentRep.bitrate))
        | none => true)

/-- The score check of source line 661: the guess continues only when no
score estimate exists or the score is above 1.2. -/
def guessScoreAllows (env : AbrStepEnv) (currentRep : Representation) : Bool :=
  match env.getEstimate currentRep with
  | none => true
  | some sd => decide (sd.1 > 1.2)

/-- The `enableGuessingMode` condition (source lines 678-681 and 697-700):
finite `bufferGap ≥ 6`, no active cooldown, HIGH score confidence and
`score / speed ≥ 1.4`. -/
def guessModeEnabled (env : AbrStepEnv) (st : AbrState)
    (currentRep : Representation) : Bool :=
  match env.getEstimate currentRep with
  | none => false
  | some sd =>
    (match env.clock.bufferGap with
     | some g => decide (g ≥ 6)
     | none => false) &&
    decide (env.now > st.blockGuessingModeUntil) &&
    (sd.2 == ScoreConfidenceLevel.HIGH) &&
    decide (sd.1 / env.clock.speed ≥ 14 / 10)

/-- Outcome of the guess-mode block (source lines 605-712): the chosen
guess-mode Representation (if any) together with the updated
`consecutiveWrongGuesses` and `blockGuessingModeUntil` values. -/
structure GuessResult where
  chosen : Option Representation
  consecutiveWrongGuesses : ℕ
  blockGuessingModeUntil : ℚ
deriving DecidableEq, Repr

/-- The guess-mode block of the estimation step (source lines 605-712),
given the already-computed buffer-based and bandwidth-based choices. -/
def guessModeDecision (env : AbrStepEnv) (st : AbrState)
    (chosenRepFromBufferSize : Option Representation)
    (chosenRepFromBandwidth : Representation) : GuessResult :=
  let keep : GuessResult :=
    ⟨none, st.consecutiveWrongGuesses, st.blockGuessingModeUntil⟩
  match env.clock.liveGap with
  | none => keep -- not live: no need to take any risk
  | some liveGap =>
    if liveGap > 50 then keep -- far from the live edge
    else
      match env.currentRepresentation, st.prevEstimate.representation with
      | none, _ => keep -- nothing to base a guess on
      | some _, none => keep
      | some currentRep, some prevRep =>
        if (match chosenRepFromBufferSize with
            | some cbs => decide (cbs.bitrate > prevRep.bitrate)
            | none => false) then
          keep -- buffer-based estimate already superior to the guess
        else if st.prevEstimate.wasGuessed then
          -- currently in guessing mode
          if (match chosenRepFromBufferSize with
              | some cbs => cbs.bitrate == prevRep.bitrate
              | none => false) then
            ⟨none, 0, st.blockGuessingModeUntil⟩ -- validated by buffer-based
          else if chosenRepFromBandwidth.bitrate ≥ prevRep.bitrate then
            ⟨none, 0, st.blockGuessingModeUntil⟩ -- validated by bandwidth-based
          else if currentRep.id == prevRep.id then
            if stayInGuessMode env currentRep && guessScoreAllows env currentRep then
              ⟨some currentRep, st.consecutiveWrongGuesses,
                st.blockGuessingModeUntil⟩ -- continue with the guess
            else
              -- wrong guess: block guessing
              let newCwg := st.consecutiveWrongGuesses + 1
              ⟨none, newCwg,
                env.now + min ((newCwg : ℚ) * 120000) 360000⟩
          else if guessModeEnabled env st currentRep then
            ⟨getSuperiorRepresentation
                (getFilteredRepresentations env.representations env.filters)
                currentRep,
              st.consecutiveWrongGuesses, st.blockGuessingModeUntil⟩
          else keep
        else if guessModeEnabled env st currentRep then
          ⟨getSuperiorRepresentation
              (getFilteredRepresentations env.representations env.filters)
              currentRep,
            st.consecutiveWrongGuesses, st.blockGuessingModeUntil⟩
        else keep

/-- The updated `allowBufferBasedEstimates` flag (source lines 552-559,
mutated before the buffer-based choice is computed): deactivated at
`bufferGap ≤ 5`, activated at finite `bufferGap > 10` (hysteresis). -/
def allowBufferBasedOf (env : AbrStepEnv) (st : AbrState) : Bool :=
  let bgLe5 : Bool :=
    match env.clock.bufferGap with
    | some g => decide (g ≤ 5)
    | none => false
  let bgGt10 : Bool :=
    match env.clock.bufferGap with
    | some g => decide (g > 10)
    | none => false
  if st.allowBufferBasedEstimates && bgLe5 then false
  else if !st.allowBufferBasedEstimates && bgGt10 then true
  else st.allowBufferBasedEstimates

/-- `chosenRepFromBandwidth` (source lines 567-570). -/
def chosenRepFromBandwidthOf (env : AbrStepEnv) : Option Representation :=
  selectOptimalRepresentation
    (getFilteredRepresentations env.representations env.filters)
    env.bitrateChosen env.minAutoBitrate env.maxAutoBitrate

/-- `chosenRepFromBufferSize` (source lines 582-590), given the already
resolved bandwidth-based choice. -/
def chosenRepFromBufferSizeOf (env : AbrStepEnv) (st : AbrState)
    (chosenRepFromBandwidth : Representation) : Option Representation :=
  if allowBufferBasedOf env st then
    match env.bufferBasedBitrate with
    | some bufferBasedBitrate =>
      if chosenRepFromBandwidth.bitrate < bufferBasedBitrate then
        selectOptimalRepresentation
          (getFilteredRepresentations env.representations env.filters)
          bufferBasedBitrate env.minAutoBitrate env.maxAutoBitrate
      else none
    | none => none
  else none

/-- `knownStableBitrate` (source lines 547-550). -/
def knownStableBitrateOf (env : AbrStepEnv) : Option ℚ :=
  match env.lastStableRepresentation with
  | none => none
  | some r =>
    some (r.bitrate / (if env.clock.speed > 0 then env.clock.speed else 1))

/-- One auto-mode estimation step (the `map` body, source lines 533-748):
from the inputs and the mutable state, the updated state and the emitted
estimate.  Returns `none` exactly when the (filtered) representation list is
empty, where the source would fail on `undefined`. -/
def estimateStep (env : AbrStepEnv) (st : AbrState) :
    Option (AbrState × AbrEstimate) :=
  let knownStableBitrate := knownStableBitrateOf env
  let allowBB := allowBufferBasedOf env st
  match chosenRepFromBandwidthOf env with
  | none => none
  | some chosenRepFromBandwidth =>
    let chosenRepFromBufferSize :=
      chosenRepFromBufferSizeOf env st chosenRepFromBandwidth
    let g := guessModeDecision env st chosenRepFromBufferSize
      chosenRepFromBandwidth
    match g.chosen with
    | some chosenRepFromGuessMode =>
      some ({ prevEstimate := { representation := some chosenRepFromGuessMode,
                                bandwidth := env.bandwidthEstimate,
                                wasGuessed := true },
              allowBufferBasedEstimates := allowBB,
              blockGuessingModeUntil := g.blockGuessingModeUntil,
              consecutiveWrongGuesses := g.consecutiveWrongGuesses },
            { bitrate := env.bandwidthEstimate,
              representation := chosenRepFromGuessMode,
              urgent := false,
              manual := false,
              knownStableBitrate := knownStableBitrate })
    | none =>
      match chosenRepFromBufferSize with
      | some cbs =>
        some ({ prevEstimate := { representation := some cbs,
                                  bandwidth := env.bandwidthEstimate,
                                  wasGuessed := false },
                allowBufferBasedEstimates := allowBB,
                blockGuessingModeUntil := g.blockGuessingModeUntil,
                consecutiveWrongGuesses := g.consecutiveWrongGuesses },
              { bitrate := env.bandwidthEstimate,
                representation := cbs,
                urgent := env.isUrgent cbs.bitrate,
                manual := false,
                knownStableBitrate := knownStableBitrate })
      | none =>
        some ({ prevEstimate := { representation := some chosenRepFromBandwidth,
                                  bandwidth := env.bandwidthEstimate,
                                  wasGuessed := false },
                allowBufferBasedEstimates := allowBB,
                blockGuessingModeUntil := g.blockGuessingModeUntil,
                consecutiveWrongGuesses := g.consecutiveWrongGuesses },
              { bitrate := env.bandwidthEstimate,
                representation := chosenRepFromBandwidth,
                urgent := env.isUrgent chosenRepFromBandwidth.bitrate,
                manual := false,
                knownStableBitrate := knownStableBitrate })

/-- The `observableDefer` dispatch of `RepresentationEstimator` (source lines
468-479): with no Representation the estimator throws; with exactly one it
emits a single constant estimate; otherwise (`.ok none` here) it proceeds to
the manual/auto pipeline. -/
def representationEstimatorInit (representations : List Representation) :
    Except String (Option AbrEstimate) :=
  match representations with
  | [] => .error "ABRManager: no representation choice given"
  | r :: rest =>
    if rest.length = 0 then
      .ok (some { bitrate := none,
                  representation := r,
                  manual := false,
                  urgent := true,
                  knownStableBitrate := none })
    else .ok none

/-- C10: with a single-element representation list, the estimator emits
exactly the constant estimate carrying that Representation, `urgent = true`,
`manual = false` and undefined `bitrate` / `knownStableBitrate`; with an
empty list it throws instead of emitting. -/
theorem claim_C10 :
    (∀ r : Representation, representationEstimatorInit [r] =
      .ok (some { bitrate := none,
                  representation := r,
                  manual := false,
                  urgent := true,
                  knownStableBitrate := none })) ∧
    representationEstimatorInit [] =
      .error "ABRManager: no representation choice given" :=
  ⟨fun _ => rfl, rfl⟩

/-- What `selectOptimalRepresentation` guarantees upward: the choice never
exceeds the `maxBitrate` bound (when `minBitrate ≤ maxBitrate`), except that
it may be the head — the lowest-bitrate Representation of the (sorted) list —
when nothing is at or below the clamped target. -/
theorem selectOptimal_le_max (reps : List Representation)
    (opt minB M : ℚ) (hminM : minB ≤ M) (r : Representation)
    (h : selectOptimalRepresentation reps opt minB (some M) = some r) :
    r.bitrate ≤ M ∨ reps.head? = some r := by
  simp only [selectOptimalRepresentation] at h
  split at h
  · rename_i r' hfil
    left
    cases h
    have hmem := List.mem_of_getLast?_eq_some hfil
    have hfl := (List.mem_filter.mp hmem).2
    simp only [decide_eq_true_eq] at hfl
    refine le_trans hfl ?_
    split
    · exact hminM
    · split
      · exact le_refl _
      · rename_i hnotge
        exact le_of_lt (lt_of_not_ge hnotge)
  · right; exact h

/-- Every Representation chosen by the guess-mode block is either the current
Representation (a continued guess) or the one right above it in the filtered
list (a fresh guess). -/
theorem guessModeDecision_chosen (env : AbrStepEnv) (st : AbrState)
    (cbs : Option Representation) (cbw : Representation)
    (c : Representation)
    (h : (guessModeDecision env st cbs cbw).chosen = some c) :
    ∃ cur, env.currentRepresentation = some cur ∧
      (c = cur ∨
        getSuperiorRepresentation
          (getFilteredRepresentations env.representations env.filters) cur =
          some c) := by
  unfold guessModeDecision at h
  split at h
  · simp at h
  · split at h
    · simp at h
    · split at h
      · simp at h
      · simp at h
      · rename_i currentRep prevRep hcur hprev
        split at h
        · simp at h
        · split at h
          · split at h
            · simp at h
            · split at h
              · simp at h
              · split at h
                · split at h
                  · exact ⟨currentRep, hcur, Or.inl (by simpa using h.symm)⟩
                  · simp at h
                · split at h
                  · exact ⟨currentRep, hcur, Or.inr (by simpa using h)⟩
                  · simp at h
          · split at h
            · exact ⟨currentRep, hcur, Or.inr (by simpa using h)⟩
            · simp at h

/-- C3 (amended): in auto mode (with no filter active and
`min_auto_bitrate ≤ max_auto_bitrate`), every emitted estimate is non-manual
and its Representation either (a) has bitrate at most `max_auto_bitrate`,
or (b) is the first (lowest-bitrate) Representation of the list — in
particular when none fits below the bound — or (c) was chosen by guess mode,
in which case it is the current Representation or the one right above it in
the list, with no bound applied at all.  The lower bound `min_auto_bitrate`
only raises the target bitrate and can be undershot even when Representations
inside `[min, max]` exist. -/
theorem claim_C3_amended (env : AbrStepEnv) (st : AbrState) (M : ℚ)
    (hfilters : env.filters = ⟨none, none⟩)
    (hmax : env.maxAutoBitrate = some M)
    (hmin : env.minAutoBitrate ≤ M)
    (st' : AbrState) (est : AbrEstimate)
    (hstep : estimateStep env st = some (st', est)) :
    est.manual = false ∧
    (est.representation.bitrate ≤ M ∨
     env.representations.head? = some est.representation ∨
     (∃ cur, env.currentRepresentation = some cur ∧
        (est.representation = cur ∨
          getSuperiorRepresentation env.representations cur =
            some est.representation))) := by
  have hfr : getFilteredRepresentations env.representations env.filters =
      env.representations := by rw [hfilters]; rfl
  unfold estimateStep at hstep
  cases hsel : chosenRepFromBandwidthOf env with
  | none => rw [hsel] at hstep; simp at hstep
  | some cbw =>
    rw [hsel] at hstep
    dsimp only [] at hstep
    cases hg : (guessModeDecision env st
        (chosenRepFromBufferSizeOf env st cbw) cbw).chosen with
    | some c =>
      rw [hg] at hstep
      obtain ⟨rfl, rfl⟩ : st' = _ ∧ est = _ := by
        have := hstep; simp only [Option.some.injEq, Prod.mk.injEq] at this
        exact ⟨this.1.symm, this.2.symm⟩
      obtain ⟨cur, hcur, hdisj⟩ :=
        guessModeDecision_chosen env st _ cbw c hg
      rw [hfr] at hdisj
      exact ⟨rfl, Or.inr (Or.inr ⟨cur, hcur, hdisj⟩)⟩
    | none =>
      rw [hg] at hstep
      cases hcbs : chosenRepFromBufferSizeOf env st cbw with
      | some cbsv =>
        rw [hcbs] at hstep
        obtain ⟨rfl, rfl⟩ : st' = _ ∧ est = _ := by
          have := hstep; simp only [Option.some.injEq, Prod.mk.injEq] at this
          exact ⟨this.1.symm, this.2.symm⟩
        refine ⟨rfl, ?_⟩
        unfold chosenRepFromBufferSizeOf at hcbs
        split at hcbs
        · split at hcbs
          · split at hcbs
            · rw [hfr, hmax] at hcbs
              rcases selectOptimal_le_max env.representations _ _ M hmin
                  cbsv hcbs with h1 | h1
              · exact Or.inl h1
              · exact Or.inr (Or.inl h1)
            · cases hcbs
          · cases hcbs
        · cases hcbs
      | none =>
        rw [hcbs] at hstep
        obtain ⟨rfl, rfl⟩ : st' = _ ∧ est = _ := by
          have := hstep; simp only [Option.some.injEq, Prod.mk.injEq] at this
          exact ⟨this.1.symm, this.2.symm⟩
        refine ⟨rfl, ?_⟩
        unfold chosenRepFromBandwidthOf at hsel
        rw [hfr, hmax] at hsel
        rcases selectOptimal_le_max env.representations _ _ M hmin cbw hsel
          with h1 | h1
        · exact Or.inl h1
        · exact Or.inr (Or.inl h1)

/-- A 400 kb/s Representation. -/
def repLow : Representation := ⟨"1", 400000⟩

/-- A 2 Mb/s Representation. -/
def repHigh : Representation := ⟨"2", 2000000⟩

/-- Auto-mode inputs near the live edge with `max_auto_bitrate = 500 kb/s`:
current Representation `repLow` (400 kb/s, HIGH-confidence score 1.6),
`bufferGap = 8 s`, `liveGap = 10 s`, no cooldown — guess mode fires. -/
def envGuess : AbrStepEnv :=
  { representations := [repLow, repHigh],
    clock := { bufferGap := some 8, position := 0, speed := 1, duration := 60,
               liveGap := some 10 },
    minAutoBitrate := 0,
    maxAutoBitrate := some 500000,
    filters := ⟨none, none⟩,
    currentRepresentation := some repLow,
    requests := [],
    bufferBasedBitrate := none,
    bandwidthEstimate := some 450000,
    bitrateChosen := 450000,
    getEstimate := fun r => if r.id = "1" then some (8/5, .HIGH) else none,
    lastStableRepresentation := none,
    estimateRequestBw := fun _ => none,
    isUrgent := fun _ => false,
    now := 1000 }

/-- The auto-mode state right before the guess: the previous estimate was
`repLow`, not guessed, no cooldown, no wrong guess yet. -/
def stGuessStart : AbrState :=
  { prevEstimate := { bandwidth := some 450000, representation := some repLow,
                      wasGuessed := false },
    allowBufferBasedEstimates := false,
    blockGuessingModeUntil := 0,
    consecutiveWrongGuesses := 0 }

/-- Auto-mode inputs far from live (no guessing) with
`min_auto_bitrate = 500 kb/s`, no max bound and a bandwidth target of
600 kb/s. -/
def envMinVio : AbrStepEnv :=
  { representations := [repLow, repHigh],
    clock := { bufferGap := some 8, position := 0, speed := 1, duration := 60,
               liveGap := none },
    minAutoBitrate := 500000,
    maxAutoBitrate := none,
    filters := ⟨none, none⟩,
    currentRepresentation := none,
    requests := [],
    bufferBasedBitrate := none,
    bandwidthEstimate := some 600000,
    bitrateChosen := 600000,
    getEstimate := fun _ => none,
    lastStableRepresentation := none,
    estimateRequestBw := fun _ => none,
    isUrgent := fun _ => false,
    now := 1000 }

/-- The state and estimate `estimateStep envGuess stGuessStart` produces. -/
theorem estimateStep_envGuess_eval :
    estimateStep envGuess stGuessStart =
      some ({ prevEstimate := { bandwidth := some 450000,
                                representation := some repHigh,
                                wasGuessed := true },
              allowBufferBasedEstimates := false,
              blockGuessingModeUntil := 0,
              consecutiveWrongGuesses := 0 },
            { bitrate := some 450000,
              representation := repHigh,
              urgent := false,
              manual := false,
              knownStableBitrate := none }) := by
  have h1 : chosenRepFromBandwidthOf envGuess = some repLow := by
    norm_num [chosenRepFromBandwidthOf, selectOptimalRepresentation,
      getFilteredRepresentations, envGuess, repLow, repHigh]
  have h2 : chosenRepFromBufferSizeOf envGuess stGuessStart repLow = none := by
    norm_num [chosenRepFromBufferSizeOf, allowBufferBasedOf, envGuess,
      stGuessStart]
  have h3 : guessModeDecision envGuess stGuessStart none repLow =
      ⟨some repHigh, 0, 0⟩ := by
    norm_num [guessModeDecision, guessModeEnabled, getSuperiorRepresentation,
      getFilteredRepresentations, envGuess, stGuessStart, repLow, repHigh]
  have h4 : knownStableBitrateOf envGuess = none := rfl
  have h5 : allowBufferBasedOf envGuess stGuessStart = false := by
    norm_num [allowBufferBasedOf, envGuess, stGuessStart]
  simp [estimateStep, h1, h2, h3, h4, h5]
  rfl

/-- C3 counterexample, two concrete instances.  (1) Guess mode: with
`max_auto_bitrate = 500 kb/s` and `repLow` (400 kb/s) inside
`[min_auto, max_auto]`, the emitted Representation is `repHigh` at 2 Mb/s —
above the bound even though a Representation fits, and not the lowest one.
(2) Bandwidth mode: with `min_auto_bitrate = 500 kb/s`, a 600 kb/s target
selects `repLow` at 400 kb/s, below the bound, even though `repHigh` lies in
`[min_auto, max_auto]`. -/
theorem claim_C3_counterexample :
    ((estimateStep envGuess stGuessStart).map (fun p => p.2.representation) =
        some repHigh ∧
      envGuess.maxAutoBitrate = some 500000 ∧
      ¬(repHigh.bitrate ≤ 500000) ∧
      repLow ∈ envGuess.representations ∧
      envGuess.minAutoBitrate ≤ repLow.bitrate ∧ repLow.bitrate ≤ 500000) ∧
    ((estimateStep envMinVio stGuessStart).map (fun p => p.2.representation) =
        some repLow ∧
      envMinVio.minAutoBitrate = 500000 ∧
      envMinVio.maxAutoBitrate = none ∧
      repLow.bitrate < envMinVio.minAutoBitrate ∧
      repHigh ∈ envMinVio.representations ∧
      envMinVio.minAutoBitrate ≤ repHigh.bitrate) := by
  constructor
  · refine ⟨by rw [estimateStep_envGuess_eval]; rfl, rfl, ?_, ?_, ?_, ?_⟩
    · norm_num [repHigh]
    · simp [envGuess]
    · norm_num [envGuess, repLow]
    · norm_num [repLow]
  · have h1 : chosenRepFromBandwidthOf envMinVio = some repLow := by
      norm_num [chosenRepFromBandwidthOf, selectOptimalRepresentation,
        getFilteredRepresentations, envMinVio, repLow, repHigh]
    have h2 : chosenRepFromBufferSizeOf envMinVio stGuessStart repLow = none := by
      norm_num [chosenRepFromBufferSizeOf, allowBufferBasedOf, envMinVio,
        stGuessStart]
    have h3 : guessModeDecision envMinVio stGuessStart none repLow =
        ⟨none, 0, 0⟩ := by
      norm_num [guessModeDecision, envMinVio, stGuessStart]
    refine ⟨?_, rfl, rfl, ?_, ?_, ?_⟩
    · simp [estimateStep, h1, h2, h3]
    · norm_num [repLow, envMinVio]
    · simp [envMinVio]
    · norm_num [envMinVio, repHigh]

/-- C3 witness: the amended bound statement applied to the concrete
guess-mode step. -/
theorem claim_C3_witness :
    ∃ st' est, estimateStep envGuess stGuessStart = some (st', est) ∧
      est.manual = false ∧
      (est.representation.bitrate ≤ 500000 ∨
       envGuess.representations.head? = some est.representation ∨
       (∃ cur, envGuess.currentRepresentation = some cur ∧
          (est.representation = cur ∨
            getSuperiorRepresentation envGuess.representations cur =
              some est.representation))) := by
  refine ⟨_, _, estimateStep_envGuess_eval, ?_⟩
  exact claim_C3_amended envGuess stGuessStart 500000 rfl rfl
    (by norm_num [envGuess]) _ _ estimateStep_envGuess_eval

/-- C4: whenever a guess is aborted — in guessing mode (previous estimate was
guessed, current Representation is still the guessed one), not validated by
the buffer-based or bandwidth-based choices, and either a monitored request
for the guessed Representation elapsed beyond its segment duration (1 s for
an init segment) or its in-flight bandwidth dropped below the
Representation's bitrate (`stayInGuessMode = false`), or the score dropped to
1.2 or below — `consecutiveWrongGuesses` is incremented by one and guessing
is blocked until `now + min(consecutiveWrongGuesses × 120 s, 360 s)`; with
two previous wrong guesses the third abort reaches the 360 s cap. -/
theorem claim_C4 (env : AbrStepEnv) (st : AbrState)
    (lg : ℚ) (cur prevR : Representation)
    (h1 : env.clock.liveGap = some lg) (h2 : ¬(lg > 50))
    (h3 : env.currentRepresentation = some cur)
    (h4 : st.prevEstimate.representation = some prevR)
    (h5 : st.prevEstimate.wasGuessed = true)
    (h6 : ∀ cbw, chosenRepFromBandwidthOf env = some cbw →
      (∀ cbs, chosenRepFromBufferSizeOf env st cbw = some cbs →
        ¬(cbs.bitrate > prevR.bitrate) ∧ cbs.bitrate ≠ prevR.bitrate) ∧
      cbw.bitrate < prevR.bitrate)
    (h8 : cur.id = prevR.id)
    (h9 : (stayInGuessMode env cur && guessScoreAllows env cur) = false)
    (st' : AbrState) (est : AbrEstimate)
    (hstep : estimateStep env st = some (st', est)) :
    st'.consecutiveWrongGuesses = st.consecutiveWrongGuesses + 1 ∧
    st'.blockGuessingModeUntil =
      env.now +
        min (((st.consecutiveWrongGuesses + 1 : ℕ) : ℚ) * 120000) 360000 ∧
    (st.consecutiveWrongGuesses = 2 →
      st'.blockGuessingModeUntil = env.now + 360000) := by
  cases hsel : chosenRepFromBandwidthOf env with
  | none =>
    unfold estimateStep at hstep
    rw [hsel] at hstep
    simp at hstep
  | some cbw =>
    obtain ⟨hbufPair, hbwlt⟩ := h6 cbw hsel
    have hnge : ¬(cbw.bitrate ≥ prevR.bitrate) := not_le.mpr hbwlt
    unfold estimateStep at hstep
    rw [hsel] at hstep
    dsimp only [] at hstep
    have hg : guessModeDecision env st
        (chosenRepFromBufferSizeOf env st cbw) cbw =
        ⟨none, st.consecutiveWrongGuesses + 1,
          env.now +
            min (((st.consecutiveWrongGuesses + 1 : ℕ) : ℚ) * 120000)
              360000⟩ := by
      cases hcb : chosenRepFromBufferSizeOf env st cbw with
      | none =>
        simp [guessModeDecision, h1, h2, h3, h4, h5, hcb, hnge, h8, h9]
      | some c =>
        have hc1 : ¬(c.bitrate > prevR.bitrate) := (hbufPair c hcb).1
        have hc2 : c.bitrate ≠ prevR.bitrate := (hbufPair c hcb).2
        simp [guessModeDecision, h1, h2, h3, h4, h5, hcb, hnge, h8, h9,
          hc1, hc2]
    rw [hg] at hstep
    dsimp only [] at hstep
    have hfields : st'.consecutiveWrongGuesses =
        st.consecutiveWrongGuesses + 1 ∧
        st'.blockGuessingModeUntil =
          env.now +
            min (((st.consecutiveWrongGuesses + 1 : ℕ) : ℚ) * 120000)
              360000 := by
      cases hcb : chosenRepFromBufferSizeOf env st cbw with
      | none =>
        rw [hcb] at hstep
        simp only [Option.some.injEq, Prod.mk.injEq] at hstep
        rw [← hstep.1]
        exact ⟨rfl, rfl⟩
      | some c =>
        rw [hcb] at hstep
        simp only [Option.some.injEq, Prod.mk.injEq] at hstep
        rw [← hstep.1]
        exact ⟨rfl, rfl⟩
    refine ⟨hfields.1, hfields.2, fun hcwg => ?_⟩
    rw [hfields.2, hcwg]
    norm_num

/-- A pending media-segment request for the guessed Representation (id "2"),
expected duration 4 s, started at `performance.now() = 0`. -/
def reqStalled : PendingRequest :=
  { representationId := "2", isInit := false, duration := 4,
    requestTimestamp := 0 }

/-- Guess-abort inputs: the guessed `repHigh` is current, near the live edge,
and its one pending request has been running for 5 s — beyond its 4 s
segment duration. -/
def envAbort : AbrStepEnv :=
  { representations := [repLow, repHigh],
    clock := { bufferGap := some 8, position := 0, speed := 1, duration := 60,
               liveGap := some 10 },
    minAutoBitrate := 0,
    maxAutoBitrate := none,
    filters := ⟨none, none⟩,
    currentRepresentation := some repHigh,
    requests := [reqStalled],
    bufferBasedBitrate := none,
    bandwidthEstimate := some 600000,
    bitrateChosen := 600000,
    getEstimate := fun _ => none,
    lastStableRepresentation := none,
    estimateRequestBw := fun _ => none,
    isUrgent := fun _ => false,
    now := 5000 }

/-- In-guessing-mode state with two consecutive wrong guesses already. -/
def stInGuess : AbrState :=
  { prevEstimate := { bandwidth := some 600000,
                      representation := some repHigh, wasGuessed := true },
    allowBufferBasedEstimates := false,
    blockGuessingModeUntil := 0,
    consecutiveWrongGuesses := 2 }

/-- C4 witness: the theorem applied to a concrete third wrong guess — the
counter reaches 3 and the cooldown caps at 360 s past `now`. -/
theorem claim_C4_witness :
    ∃ st' est, estimateStep envAbort stInGuess = some (st', est) ∧
      st'.consecutiveWrongGuesses = 3 ∧
      st'.blockGuessingModeUntil = envAbort.now + 360000 := by
  have hsel : chosenRepFromBandwidthOf envAbort = some repLow := by
    norm_num [chosenRepFromBandwidthOf, selectOptimalRepresentation,
      getFilteredRepresentations, envAbort, repLow, repHigh]
  have hcbs : chosenRepFromBufferSizeOf envAbort stInGuess repLow = none := by
    norm_num [chosenRepFromBufferSizeOf, allowBufferBasedOf, envAbort,
      stInGuess]
  have hstay : (stayInGuessMode envAbort repHigh &&
      guessScoreAllows envAbort repHigh) = false := by
    norm_num [stayInGuessMode, envAbort, reqStalled, repHigh]
  have hg : guessModeDecision envAbort stInGuess none repLow =
      ⟨none, 3, 365000⟩ := by
    have hs2 := hstay
    norm_num [guessModeDecision, envAbort, stInGuess, repLow, repHigh] at hs2 ⊢
    norm_num [stayInGuessMode, guessScoreAllows, envAbort, reqStalled,
      repHigh] at hs2 ⊢
  have heval : estimateStep envAbort stInGuess =
      some ({ prevEstimate := { bandwidth := some 600000,
                                representation := some repLow,
                                wasGuessed := false },
              allowBufferBasedEstimates := false,
              blockGuessingModeUntil := 365000,
              consecutiveWrongGuesses := 3 },
            { bitrate := some 600000,
              representation := repLow,
              urgent := false,
              manual := false,
              knownStableBitrate := none }) := by
    have h4 : knownStableBitrateOf envAbort = none := rfl
    have h5 : allowBufferBasedOf envAbort stInGuess = false := by
      norm_num [allowBufferBasedOf, envAbort, stInGuess]
    simp [estimateStep, hsel, hcbs, hg, h4, h5]
    exact ⟨rfl, rfl⟩
  obtain ⟨hc, hb, hcap⟩ := claim_C4 envAbort stInGuess 10 repHigh repHigh
    rfl (by norm_num) rfl rfl rfl
    (by
      intro cbw hcbw
      rw [hsel] at hcbw
      cases hcbw
      refine ⟨?_, ?_⟩
      · intro cbs hc2
        rw [hcbs] at hc2
        cases hc2
      · norm_num [repLow, repHigh])
    rfl hstay _ _ heval
  exact ⟨_, _, heval, by rw [hc]; rfl, hcap rfl⟩

/-! ## TrackChoiceManager (`src/unnamed/part_006`)

JavaScript object identity (the `===` comparisons of the source) is modelled
by a `uid` field: two values are `===` exactly when they are structurally
equal including `uid`, distinct objects getting distinct uids.  Trick-mode
tracks are modelled one level deep (a trick-mode Adaptation of the sources
never carries further trick-mode tracks). -/

/-- The three track types the TrackChoiceManager manages. -/
inductive BufferType where
  | audio
  | video
  | text
deriving DecidableEq, Repr

/-- Data of a trick-mode companion Adaptation. -/
structure AdaptationData where
  uid : ℕ
  id : String
  isSupported : Bool
deriving DecidableEq, Repr

/-- An Adaptation as the TrackChoiceManager reads it. -/
structure Adaptation where
  uid : ℕ
  id : String
  isSupported : Bool
  trickModeTracks : List AdaptationData
deriving DecidableEq, Repr

/-- A trick-mode companion promoted to a full Adaptation (it has no further
trick-mode tracks). -/
def AdaptationData.toAdaptation (a : AdaptationData) : Adaptation :=
  { uid := a.uid, id := a.id, isSupported := a.isSupported,
    trickModeTracks := [] }

/-- A Period as the TrackChoiceManager reads it: identity, id, bounds and the
owned Adaptations by type. -/
structure Period where
  uid : ℕ
  id : String
  start : ℚ
  periodEnd : Option ℚ
  audioAdaptations : List Adaptation
  videoAdaptations : List Adaptation
  textAdaptations : List Adaptation
deriving DecidableEq, Repr

/-- The Period's Adaptations of one type. -/
def Period.adaptationsOfType (p : Period) : BufferType → List Adaptation
  | .audio => p.audioAdaptations
  | .video => p.videoAdaptations
  | .text => p.textAdaptations

/-- Modelled from the spec: `Period.getSupportedAdaptations` (the `Period`
class is not in the tree; the manager only ever consumes this accessor): the
Period's Adaptations of the given type that are supported (`is_supported` =
some Representation has a supported codec). -/
def Period.getSupportedAdaptations (p : Period) (t : BufferType) :
    List Adaptation :=
  (p.adaptationsOfType t).filter (fun a => a.isSupported)

/-- `IAudioPeriodInfo` / `ITextPeriodInfo`: the wanted track, the last track
emitted through the subject (`none` = `undefined`, `some none` = `null`
emitted) and whether a subject is currently attached. -/
structure TrackInfo where
  wantedTrack : Option Adaptation
  lastEmittedTrack : Option (Option Adaptation)
  hasSubject : Bool
deriving DecidableEq, Repr

/-- `IVideoPeriodInfo`: as `TrackInfo` plus the `wantedTrackBase`. -/
structure VideoTrackInfo where
  wantedTrackBase : Option Adaptation
  wantedTrack : Option Adaptation
  lastEmittedTrack : Option (Option Adaptation)
  hasSubject : Bool
deriving DecidableEq, Repr

/-- `ITMPeriodInfos`. -/
structure TMPeriodInfos where
  period : Period
  inManifest : Bool
  isRemoved : Bool
  audio : TrackInfo
  video : VideoTrackInfo
  text : TrackInfo
deriving DecidableEq, Repr

/-- One value pushed on a track-choice subject: the Period, the track type
and the wanted Adaptation (`none` = `null`). -/
structure TrackEmission where
  periodId : String
  bufferType : BufferType
  adaptation : Option Adaptation
deriving DecidableEq, Repr

/-- `getRightVideoTrack`: the first trick-mode track when trick mode is
enabled and one exists, the Adaptation itself otherwise. -/
def getRightVideoTrack (adaptation : Adaptation) (isTrickModeEnabled : Bool) :
    Adaptation :=
  if isTrickModeEnabled then
    match adaptation.trickModeTracks.head? with
    | some t => t.toAdaptation
    | none => adaptation
  else adaptation

/-- `isPeriodItemRemovable`: no longer in the Manifest and no subject of any
type still attached. -/
def isPeriodItemRemovable (periodItem : TMPeriodInfos) : Bool :=
  !periodItem.inManifest && !periodItem.text.hasSubject &&
  !periodItem.audio.hasSubject && !periodItem.video.hasSubject

/-- `TrackChoiceManager.generatePeriodInfo`: initial wanted tracks are the
first supported Adaptation of each type (`null` when none), the video one
routed through `getRightVideoTrack`. -/
def generatePeriodInfo (trickModeTrackEnabled : Bool) (period : Period)
    (inManifest : Bool) : TMPeriodInfos :=
  let audioAdaptation := (period.getSupportedAdaptations .audio).head?
  let textAdaptation := (period.getSupportedAdaptations .text).head?
  let baseVideoAdaptation := (period.getSupportedAdaptations .video).head?
  let videoAdaptation :=
    match baseVideoAdaptation with
    | some b => some (getRightVideoTrack b trickModeTrackEnabled)
    | none => none
  { period := period, inManifest := inManifest, isRemoved := false,
    audio := { wantedTrack := audioAdaptation, lastEmittedTrack := none,
               hasSubject := false },
    video := { wantedTrack := videoAdaptation,
               wantedTrackBase := baseVideoAdaptation,
               lastEmittedTrack := none, hasSubject := false },
    text := { wantedTrack := textAdaptation, lastEmittedTrack := none,
              hasSubject := false } }

/-- Which of the three per-type infos of one Period were pushed on
`updatedTracks` during `updatePeriodList`. -/
structure UpdateFlags where
  text : Bool
  video : Bool
  audio : Bool
deriving DecidableEq, Repr

/-- No track was updated. -/
def noUpdateFlags : UpdateFlags := ⟨false, false, false⟩

/-- The per-matched-Period reconciliation of `updatePeriodList` (the
`oldPeriod === newPeriod` branch, source lines 298-343): text, then video,
then audio fall back to the first supported Adaptation (by id lookup) when
the previously wanted one disappeared; the flags mark the infos pushed on
`updatedTracks`. -/
def processMatched (tmEnabled : Bool) (item : TMPeriodInfos)
    (newPeriod : Period) : TMPeriodInfos × UpdateFlags :=
  let textStep : TrackInfo × Bool :=
    match item.text.wantedTrack with
    | none => (item.text, false)
    | some oldText =>
      let textAdaptations := newPeriod.getSupportedAdaptations .text
      if textAdaptations.any (fun a => a.id == oldText.id) then
        (item.text, false)
      else
        ({ item.text with wantedTrack := textAdaptations.head? }, true)
  let videoStep : VideoTrackInfo × Bool :=
    match item.video.wantedTrack with
    | none => (item.video, false)
    | some oldVideo =>
      let videoAdaptations := newPeriod.getSupportedAdaptations .video
      if videoAdaptations.any (fun a => a.id == oldVideo.id) then
        (item.video, false)
      else
        match videoAdaptations.head? with
        | none =>
          ({ item.video with wantedTrackBase := none, wantedTrack := none },
           true)
        | some chosenBaseTrack =>
          ({ item.video with
              wantedTrackBase := some chosenBaseTrack,
              wantedTrack :=
                some (getRightVideoTrack chosenBaseTrack tmEnabled) }, true)
  let audioStep : TrackInfo × Bool :=
    match item.audio.wantedTrack with
    | none => (item.audio, false)
    | some oldAudio =>
      let audioAdaptations := newPeriod.getSupportedAdaptations .audio
      if audioAdaptations.any (fun a => a.id == oldAudio.id) then
        (item.audio, false)
      else
        ({ item.audio with wantedTrack := audioAdaptations.head? }, true)
  ({ item with text := textStep.1, video := videoStep.1, audio := audioStep.1 },
   { text := textStep.2, video := videoStep.2, audio := audioStep.2 })

/-- The merge loop of `updatePeriodList` (source lines 285-369): walk the old
store and the new Period list in parallel; matched (identical) Periods are
reconciled, disappeared ones are marked out-of-manifest (dropped when
removable), new ones are inserted with a fresh info record. -/
def updateLoop (tmEnabled : Bool) :
    List TMPeriodInfos → List Period → List (TMPeriodInfos × UpdateFlags)
  | [], ps =>
    ps.map (fun p => (generatePeriodInfo tmEnabled p true, noUpdateFlags))
  | o :: os, [] =>
    ((o :: os).map (fun it => { it with inManifest := false })).filterMap
      (fun it =>
        if isPeriodItemRemovable it then none else some (it, noUpdateFlags))
  | o :: os, p :: ps =>
    if o.period = p then
      processMatched tmEnabled o p :: updateLoop tmEnabled os ps
    else if o.period.start ≤ p.start then
      let marked := { o with inManifest := false }
      if isPeriodItemRemovable marked then
        updateLoop tmEnabled os (p :: ps)
      else
        (marked, noUpdateFlags) :: updateLoop tmEnabled os (p :: ps)
    else
      (generatePeriodInfo tmEnabled p true, noUpdateFlags) ::
        updateLoop tmEnabled (o :: os) ps
termination_by store ps => store.length + ps.length

/-- The notification part of `updatePeriodList` for one Period (source lines
371-378): for each info pushed on `updatedTracks` — text, video, audio in
push order — when a subject is attached and the wanted track differs (by
identity) from the last emitted one, record and emit it. -/
def emitOne (itfl : TMPeriodInfos × UpdateFlags) :
    TMPeriodInfos × List TrackEmission :=
  let it := itfl.1
  let fl := itfl.2
  let textStep : TrackInfo × List TrackEmission :=
    if fl.text = true ∧ it.text.hasSubject = true ∧
        it.text.lastEmittedTrack ≠ some it.text.wantedTrack then
      ({ it.text with lastEmittedTrack := some it.text.wantedTrack },
       [⟨it.period.id, .text, it.text.wantedTrack⟩])
    else (it.text, [])
  let videoStep : VideoTrackInfo × List TrackEmission :=
    if fl.video = true ∧ it.video.hasSubject = true ∧
        it.video.lastEmittedTrack ≠ some it.video.wantedTrack then
      ({ it.video with lastEmittedTrack := some it.video.wantedTrack },
       [⟨it.period.id, .video, it.video.wantedTrack⟩])
    else (it.video, [])
  let audioStep : TrackInfo × List TrackEmission :=
    if fl.audio = true ∧ it.audio.hasSubject = true ∧
        it.audio.lastEmittedTrack ≠ some it.audio.wantedTrack then
      ({ it.audio with lastEmittedTrack := some it.audio.wantedTrack },
       [⟨it.period.id, .audio, it.audio.wantedTrack⟩])
    else (it.audio, [])
  ({ it with text := textStep.1, video := videoStep.1, audio := audioStep.1 },
   textStep.2 ++ videoStep.2 ++ audioStep.2)

/-- `TrackChoiceManager.updatePeriodList`: the merged store and the track
choices emitted on the attached subjects, in order. -/
def updatePeriodList (tmEnabled : Bool) (store : List TMPeriodInfos)
    (periods : List Period) : List TMPeriodInfos × List TrackEmission :=
  let processed := (updateLoop tmEnabled store periods).map emitOne
  (processed.map (fun x => x.1), (processed.map (fun x => x.2)).flatten)

/-- Outcome of `_setTrackById`: an early return with a logged warning, a
thrown `Error`, or normal completion (with the value pushed on the subject,
when one was pushed). -/
inductive SetOutcome where
  | warned
  | threw
  | ok (emitted : Option TrackEmission)
deriving DecidableEq, Repr

/-- The wanted-track mutation of `_setTrackById` once the Adaptation was
found (source lines 525-543): for video, `wantedTrackBase` is set first and
the wanted track is routed through `getRightVideoTrack`; an identical wanted
track returns early; otherwise the wanted track is replaced and, when a
subject is attached, recorded and pushed. -/
def applyTrackChoice (tmEnabled : Bool) (item : TMPeriodInfos)
    (bufferType : BufferType) (wantedAdaptation : Adaptation) :
    TMPeriodInfos × SetOutcome :=
  match bufferType with
  | .video =>
    let item1 :=
      { item with video :=
          { item.video with wantedTrackBase := some wantedAdaptation } }
    let newAdaptation := getRightVideoTrack wantedAdaptation tmEnabled
    if item1.video.wantedTrack = some newAdaptation then (item1, .ok none)
    else
      let item2 :=
        { item1 with video :=
            { item1.video with wantedTrack := some newAdaptation } }
      if item2.video.hasSubject then
        ({ item2 with video :=
             { item2.video with lastEmittedTrack := some (some newAdaptation) } },
         .ok (some ⟨item.period.id, .video, some newAdaptation⟩))
      else (item2, .ok none)
  | .audio =>
    if item.audio.wantedTrack = some wantedAdaptation then (item, .ok none)
    else
      let item2 :=
        { item with audio :=
            { item.audio with wantedTrack := some wantedAdaptation } }
      if item2.audio.hasSubject then
        ({ item2 with audio :=
             { item2.audio with
                lastEmittedTrack := some (some wantedAdaptation) } },
         .ok (some ⟨item.period.id, .audio, some wantedAdaptation⟩))
      else (item2, .ok none)
  | .text =>
    if item.text.wantedTrack = some wantedAdaptation then (item, .ok none)
    else
      let item2 :=
        { item with text :=
            { item.text with wantedTrack := some wantedAdaptation } }
      if item2.text.hasSubject then
        ({ item2 with text :=
             { item2.text with
                lastEmittedTrack := some (some wantedAdaptation) } },
         .ok (some ⟨item.period.id, .text, some wantedAdaptation⟩))
      else (item2, .ok none)

/-- `TrackChoiceManager._setTrackById` (with `getPeriodItem`'s first-match
lookup inlined as the recursion): Period id not found → warning, store
untouched; Adaptation id not found among the supported Adaptations of the
type → `throw`, reached before any mutation, store untouched; otherwise the
found item is updated in place. -/
def setTrackById (tmEnabled : Bool) :
    List TMPeriodInfos → String → BufferType → String →
    List TMPeriodInfos × SetOutcome
  | [], _, _, _ => ([], .warned)
  | item :: rest, periodId, bufferType, wantedId =>
    if item.period.id = periodId then
      match (item.period.getSupportedAdaptations bufferType).find?
          (fun a => a.id == wantedId) with
      | none => (item :: rest, .threw)
      | some wantedAdaptation =>
        let r := applyTrackChoice tmEnabled item bufferType wantedAdaptation
        (r.1 :: rest, r.2)
    else
      let r := setTrackById tmEnabled rest periodId bufferType wantedId
      (item :: r.1, r.2)

/-- Concrete TrackChoiceManager data for the spec scenario of §4.7: Period
`p1` refreshed with only the `de` audio Adaptation remaining. -/
def adaptFr : Adaptation := ⟨1, "audio-fr", true, []⟩

def adaptDe : Adaptation := ⟨2, "audio-de", true, []⟩

def periodP1 : Period := ⟨5, "p1", 0, none, [adaptDe], [], []⟩

def itemP1 : TMPeriodInfos :=
  ⟨periodP1, true, false,
   ⟨some adaptFr, some (some adaptFr), true⟩,
   ⟨none, none, none, false⟩,
   ⟨none, none, false⟩⟩

/-- Trick-mode scenario: the sole supported video Adaptation carries a
trick-mode companion, and the previously wanted video track disappeared. -/
def trickDataC6 : AdaptationData := ⟨90, "v1-trick", true⟩

def vidAdaptC6 : Adaptation := ⟨10, "v1", true, [trickDataC6]⟩

def oldVidC6 : Adaptation := ⟨11, "v0", true, []⟩

def periodC6 : Period := ⟨7, "p6", 0, none, [], [vidAdaptC6], []⟩

def itemC6 : TMPeriodInfos :=
  ⟨periodC6, true, false,
   ⟨none, none, false⟩,
   ⟨some oldVidC6, some oldVidC6, none, true⟩,
   ⟨none, none, false⟩⟩

lemma updateLoop_map_period (tm : Bool) (store : List TMPeriodInfos) :
    updateLoop tm store (store.map (fun it => it.period)) =
      store.map (fun o => processMatched tm o o.period) := by
  induction store with
  | nil => simp [updateLoop]
  | cons o os ih => simp [updateLoop, ih]

lemma updatePeriodList_fst_getElem (tm : Bool) (store : List TMPeriodInfos)
    (periods : List Period) (i : ℕ) (y : TMPeriodInfos × UpdateFlags)
    (hY : (updateLoop tm store periods)[i]? = some y) :
    (updatePeriodList tm store periods).1[i]? = some (emitOne y).1 := by
  unfold updatePeriodList
  dsimp only []
  rw [List.getElem?_map, List.getElem?_map, hY]
  rfl

lemma updatePeriodList_emission_mem (tm : Bool) (store : List TMPeriodInfos)
    (periods : List Period) (y : TMPeriodInfos × UpdateFlags)
    (e : TrackEmission) (hy : y ∈ updateLoop tm store periods)
    (he : e ∈ (emitOne y).2) :
    e ∈ (updatePeriodList tm store periods).2 := by
  unfold updatePeriodList
  dsimp only []
  exact List.mem_flatten.mpr
    ⟨(emitOne y).2, List.mem_map_of_mem _ (List.mem_map_of_mem _ hy), he⟩

lemma processMatched_period (tm : Bool) (item : TMPeriodInfos) (p : Period) :
    (processMatched tm item p).1.period = item.period := rfl

lemma processMatched_audio_fallback (tm : Bool) (item : TMPeriodInfos)
    (p : Period) (oldA : Adaptation)
    (h : item.audio.wantedTrack = some oldA)
    (hany : (p.getSupportedAdaptations .audio).any
      (fun a => a.id == oldA.id) = false) :
    (processMatched tm item p).1.audio =
      { item.audio with
          wantedTrack := (p.getSupportedAdaptations .audio).head? } ∧
    (processMatched tm item p).2.audio = true := by
  unfold processMatched
  dsimp only []
  rw [h]
  dsimp only []
  rw [hany]
  simp

lemma processMatched_text_fallback (tm : Bool) (item : TMPeriodInfos)
    (p : Period) (oldT : Adaptation)
    (h : item.text.wantedTrack = some oldT)
    (hany : (p.getSupportedAdaptations .text).any
      (fun a => a.id == oldT.id) = false) :
    (processMatched tm item p).1.text =
      { item.text with
          wantedTrack := (p.getSupportedAdaptations .text).head? } ∧
    (processMatched tm item p).2.text = true := by
  unfold processMatched
  dsimp only []
  rw [h]
  dsimp only []
  rw [hany]
  simp

lemma processMatched_video_fallback (tm : Bool) (item : TMPeriodInfos)
    (p : Period) (oldV : Adaptation)
    (h : item.video.wantedTrack = some oldV)
    (hany : (p.getSupportedAdaptations .video).any
      (fun a => a.id == oldV.id) = false) :
    (processMatched tm item p).1.video =
      { item.video with
          wantedTrackBase := (p.getSupportedAdaptations .video).head?,
          wantedTrack := ((p.getSupportedAdaptations .video).head?).map
            (fun b => getRightVideoTrack b tm) } ∧
    (processMatched tm item p).2.video = true := by
  unfold processMatched
  dsimp only []
  rw [h]
  dsimp only []
  rw [hany]
  cases hh : (p.getSupportedAdaptations .video).head? with
  | none => simp
  | some b => simp

lemma emitOne_audio_wantedTrack (x : TMPeriodInfos × UpdateFlags) :
    (emitOne x).1.audio.wantedTrack = x.1.audio.wantedTrack := by
  unfold emitOne
  dsimp only []
  split
  · rfl
  · rfl

lemma emitOne_text_wantedTrack (x : TMPeriodInfos × UpdateFlags) :
    (emitOne x).1.text.wantedTrack = x.1.text.wantedTrack := by
  unfold emitOne
  dsimp only []
  split
  · rfl
  · rfl

lemma emitOne_video_wantedTrack (x : TMPeriodInfos × UpdateFlags) :
    (emitOne x).1.video.wantedTrack = x.1.video.wantedTrack := by
  unfold emitOne
  dsimp only []
  split
  · rfl
  · rfl

lemma emitOne_video_wantedTrackBase (x : TMPeriodInfos × UpdateFlags) :
    (emitOne x).1.video.wantedTrackBase = x.1.video.wantedTrackBase := by
  unfold emitOne
  dsimp only []
  split
  · rfl
  · rfl

lemma emitOne_audio_mem (x : TMPeriodInfos × UpdateFlags)
    (hf : x.2.audio = true) (hs : x.1.audio.hasSubject = true)
    (hne : x.1.audio.lastEmittedTrack ≠ some x.1.audio.wantedTrack) :
    (⟨x.1.period.id, .audio, x.1.audio.wantedTrack⟩ : TrackEmission) ∈
      (emitOne x).2 := by
  unfold emitOne
  dsimp only []
  refine List.mem_append_right _ ?_
  rw [if_pos ⟨hf, hs, hne⟩]
  exact List.mem_singleton_self _

lemma emitOne_text_mem (x : TMPeriodInfos × UpdateFlags)
    (hf : x.2.text = true) (hs : x.1.text.hasSubject = true)
    (hne : x.1.text.lastEmittedTrack ≠ some x.1.text.wantedTrack) :
    (⟨x.1.period.id, .text, x.1.text.wantedTrack⟩ : TrackEmission) ∈
      (emitOne x).2 := by
  unfold emitOne
  dsimp only []
  refine List.mem_append_left _ (List.mem_append_left _ ?_)
  rw [if_pos ⟨hf, hs, hne⟩]
  exact List.mem_singleton_self _

lemma emitOne_video_mem (x : TMPeriodInfos × UpdateFlags)
    (hf : x.2.video = true) (hs : x.1.video.hasSubject = true)
    (hne : x.1.video.lastEmittedTrack ≠ some x.1.video.wantedTrack) :
    (⟨x.1.period.id, .video, x.1.video.wantedTrack⟩ : TrackEmission) ∈
      (emitOne x).2 := by
  unfold emitOne
  dsimp only []
  refine List.mem_append_left _ (List.mem_append_right _ ?_)
  rw [if_pos ⟨hf, hs, hne⟩]
  exact List.mem_singleton_self _

lemma any_id_eq_false (l : List Adaptation) (old : Adaptation)
    (h : ∀ a ∈ l, a.id ≠ old.id) :
    l.any (fun a => a.id == old.id) = false := by
  rw [List.any_eq_false]
  intro a ha
  simpa using h a ha

/-- **C6** (amended): when `updatePeriodList` is called with the store's own
(in-place mutated) Periods, every item whose previously wanted Adaptation of
a type is no longer among that Period's supported Adaptations of the type
(by id) gets as new wanted track the first supported Adaptation of the type
(`none` when none remains) — except that the video choice is routed through
`getRightVideoTrack`, so with trick mode enabled it becomes the trick-mode
companion of that first Adaptation — and, when a subject is attached and the
new value differs from the last emitted one, the new choice is emitted. -/
theorem claim_C6_amended (tm : Bool) (store : List TMPeriodInfos)
    (periods : List Period)
    (hps : periods = store.map (fun it => it.period))
    (i : ℕ) (item : TMPeriodInfos) (hit : store[i]? = some item) :
    ∃ newItem,
      (updatePeriodList tm store periods).1[i]? = some newItem ∧
      (∀ oldA, item.audio.wantedTrack = some oldA →
        (∀ a ∈ item.period.getSupportedAdaptations .audio, a.id ≠ oldA.id) →
        newItem.audio.wantedTrack =
          (item.period.getSupportedAdaptations .audio).head? ∧
        (item.audio.hasSubject = true →
          item.audio.lastEmittedTrack ≠
            some (item.period.getSupportedAdaptations .audio).head? →
          (⟨item.period.id, .audio,
             (item.period.getSupportedAdaptations .audio).head?⟩ :
            TrackEmission) ∈ (updatePeriodList tm store periods).2)) ∧
      (∀ oldT, item.text.wantedTrack = some oldT →
        (∀ a ∈ item.period.getSupportedAdaptations .text, a.id ≠ oldT.id) →
        newItem.text.wantedTrack =
          (item.period.getSupportedAdaptations .text).head? ∧
        (item.text.hasSubject = true →
          item.text.lastEmittedTrack ≠
            some (item.period.getSupportedAdaptations .text).head? →
          (⟨item.period.id, .text,
             (item.period.getSupportedAdaptations .text).head?⟩ :
            TrackEmission) ∈ (updatePeriodList tm store periods).2)) ∧
      (∀ oldV, item.video.wantedTrack = some oldV →
        (∀ a ∈ item.period.getSupportedAdaptations .video, a.id ≠ oldV.id) →
        newItem.video.wantedTrackBase =
          (item.period.getSupportedAdaptations .video).head? ∧
        newItem.video.wantedTrack =
          ((item.period.getSupportedAdaptations .video).head?).map
            (fun b => getRightVideoTrack b tm) ∧
        (item.video.hasSubject = true →
          item.video.lastEmittedTrack ≠
            some (((item.period.getSupportedAdaptations .video).head?).map
              (fun b => getRightVideoTrack b tm)) →
          (⟨item.period.id, .video,
             ((item.period.getSupportedAdaptations .video).head?).map
               (fun b => getRightVideoTrack b tm)⟩ :
            TrackEmission) ∈ (updatePeriodList tm store periods).2)) := by
  subst hps
  have hL := updateLoop_map_period tm store
  have hYget :
      (updateLoop tm store (store.map (fun it => it.period)))[i]? =
        some (processMatched tm item item.period) := by
    rw [hL, List.getElem?_map, hit]
    rfl
  have hYmem : processMatched tm item item.period ∈
      updateLoop tm store (store.map (fun it => it.period)) := by
    rw [hL]
    exact List.mem_map_of_mem _ (List.getElem?_mem hit)
  refine ⟨(emitOne (processMatched tm item item.period)).1,
    updatePeriodList_fst_getElem tm store _ i _ hYget, ?_, ?_, ?_⟩
  · intro oldA hA hnot
    obtain ⟨hproj, hflag⟩ := processMatched_audio_fallback tm item item.period
      oldA hA (any_id_eq_false _ _ hnot)
    constructor
    · rw [emitOne_audio_wantedTrack, hproj]
    · intro hs hne
      have hmem := emitOne_audio_mem (processMatched tm item item.period)
        hflag (by rw [hproj]; exact hs) (by rw [hproj]; exact hne)
      rw [processMatched_period, hproj] at hmem
      exact updatePeriodList_emission_mem tm store _ _ _ hYmem hmem
  · intro oldT hT hnot
    obtain ⟨hproj, hflag⟩ := processMatched_text_fallback tm item item.period
      oldT hT (any_id_eq_false _ _ hnot)
    constructor
    · rw [emitOne_text_wantedTrack, hproj]
    · intro hs hne
      have hmem := emitOne_text_mem (processMatched tm item item.period)
        hflag (by rw [hproj]; exact hs) (by rw [hproj]; exact hne)
      rw [processMatched_period, hproj] at hmem
      exact updatePeriodList_emission_mem tm store _ _ _ hYmem hmem
  · intro oldV hV hnot
    obtain ⟨hproj, hflag⟩ := processMatched_video_fallback tm item item.period
      oldV hV (any_id_eq_false _ _ hnot)
    refine ⟨by rw [emitOne_video_wantedTrackBase, hproj],
      by rw [emitOne_video_wantedTrack, hproj], ?_⟩
    intro hs hne
    have hmem := emitOne_video_mem (processMatched tm item item.period)
      hflag (by rw [hproj]; exact hs) (by rw [hproj]; exact hne)
    rw [processMatched_period, hproj] at hmem
    exact updatePeriodList_emission_mem tm store _ _ _ hYmem hmem

/-- **C6 witness** (the spec's §4.7 scenario): Period `p1` had `fr` audio
wanted with a subject attached; after a refresh leaving only `de` audio, the
wanted audio track is the `de` Adaptation and the change is emitted. -/
theorem claim_C6_witness :
    ∃ newItem,
      (updatePeriodList false [itemP1] [periodP1]).1[0]? = some newItem ∧
      newItem.audio.wantedTrack = some adaptDe ∧
      (⟨"p1", .audio, some adaptDe⟩ : TrackEmission) ∈
        (updatePeriodList false [itemP1] [periodP1]).2 := by
  obtain ⟨n, hget, hA, hT, hV⟩ :=
    claim_C6_amended false [itemP1] [periodP1] rfl 0 itemP1 rfl
  obtain ⟨h1, h2⟩ := hA adaptFr rfl (by decide)
  refine ⟨n, hget, ?_, ?_⟩
  · rw [h1]; rfl
  · exact h2 rfl (by decide)

/-- **C6 counterexample** to the claim as stated: with trick-mode tracks
enabled, the fallback video wanted track is NOT the first supported video
Adaptation of the Period but its trick-mode companion, which is not among
the Period's supported video Adaptations at all. -/
theorem claim_C6_counterexample :
    ∃ newItem,
      (updatePeriodList true [itemC6] [periodC6]).1[0]? = some newItem ∧
      newItem.video.wantedTrack = some (AdaptationData.toAdaptation trickDataC6) ∧
      (periodC6.getSupportedAdaptations .video).head? = some vidAdaptC6 ∧
      AdaptationData.toAdaptation trickDataC6 ≠ vidAdaptC6 ∧
      AdaptationData.toAdaptation trickDataC6 ∉
        periodC6.getSupportedAdaptations .video := by
  have hYget :
      (updateLoop true [itemC6] [periodC6])[0]? =
        some (processMatched true itemC6 periodC6) := by
    have h := updateLoop_map_period true [itemC6]
    exact h ▸ rfl
  refine ⟨(emitOne (processMatched true itemC6 periodC6)).1,
    updatePeriodList_fst_getElem true [itemC6] [periodC6] 0 _ hYget,
    by decide, by decide, by decide, by decide⟩

/-- **C9**: `_setTrackById` with an unknown Period id only logs a warning and
leaves the store untouched; with a known Period (first match, as
`getPeriodItem` finds it) but an unknown Adaptation id among the supported
Adaptations of the type, it throws and leaves the store untouched. -/
theorem claim_C9 (tm : Bool) (store : List TMPeriodInfos) (periodId : String)
    (bufferType : BufferType) (wantedId : String) :
    ((∀ it ∈ store, it.period.id ≠ periodId) →
      setTrackById tm store periodId bufferType wantedId = (store, .warned)) ∧
    (∀ (i : ℕ) (item : TMPeriodInfos), store[i]? = some item →
      item.period.id = periodId →
      (∀ (j : ℕ) (itj : TMPeriodInfos), j < i → store[j]? = some itj →
        itj.period.id ≠ periodId) →
      (∀ a ∈ item.period.getSupportedAdaptations bufferType,
        a.id ≠ wantedId) →
      setTrackById tm store periodId bufferType wantedId = (store, .threw)) := by
  constructor
  · intro h
    induction store with
    | nil => rfl
    | cons it rest ih =>
      have hne : ¬ it.period.id = periodId := h it (List.mem_cons_self it rest)
      have hrest := ih (fun x hx => h x (List.mem_cons_of_mem it hx))
      unfold setTrackById
      rw [if_neg hne]
      dsimp only []
      rw [hrest]
  · induction store with
    | nil => intro i item hget _ _ _; simp at hget
    | cons it0 rest ih =>
      intro i item hget hid hfirst hnone
      cases i with
      | zero =>
        have hitem : it0 = item := by simpa using hget
        subst hitem
        have hfind : (it0.period.getSupportedAdaptations bufferType).find?
            (fun a => a.id == wantedId) = none := by
          rw [List.find?_eq_none]
          intro a ha
          simpa using hnone a ha
        unfold setTrackById
        rw [if_pos hid, hfind]
      | succ n =>
        have hne : ¬ it0.period.id = periodId :=
          hfirst 0 it0 (Nat.succ_pos n) (by simp)
        have hget' : rest[n]? = some item := by simpa using hget
        have hfirst' : ∀ (j : ℕ) (itj : TMPeriodInfos), j < n →
            rest[j]? = some itj → itj.period.id ≠ periodId := by
          intro j itj hj hgj
          exact hfirst (j + 1) itj (Nat.succ_lt_succ hj) (by simpa using hgj)
        have hrest := ih n item hget' hid hfirst' hnone
        unfold setTrackById
        rw [if_neg hne]
        dsimp only []
        rw [hrest]

/-- **C9 witness**: on a one-item store for Period `p1`, asking for an
unknown Period id returns the store unchanged with a warning, and asking for
an unknown audio track id on `p1` throws with the store unchanged. -/
theorem claim_C9_witness :
    setTrackById false [itemP1] "nope" .audio "audio-de" =
      ([itemP1], .warned) ∧
    setTrackById false [itemP1] "p1" .audio "missing-id" =
      ([itemP1], .threw) := by
  constructor
  · exact (claim_C9 false [itemP1] "nope" .audio "audio-de").1 (by decide)
  · exact (claim_C9 false [itemP1] "p1" .audio "missing-id").2 0 itemP1 rfl
      rfl (fun j itj hj _ => absurd hj (Nat.not_lt_zero j)) (by decide)

end RxPlayer
